import Mathlib

/-!
Verification development for the freepcb2pretty converter
(`freepcb2pretty.py`): a shallow embedding, in Lean 4, of the program's
line reader, record grammar, geometric model, transform pipeline and
expression emitter, together with theorems settling the frozen claims
about it.

Modelling conventions, used uniformly below:

* Python strings are Lean `String`s; the helper functions `pyStrip`,
  `pyPartition`, `pySplitWs`, ... reproduce the semantics of the Python
  `str` methods the program calls (documented at each definition).
* Python floats are modelled as exact rationals (`ℚ`).  Every number the
  program manipulates is an integer-nanometre value divided by 10^6 or
  halved, so all arithmetic in range is exact; the rational model keeps
  it exact everywhere.
* Fallible code (raised exceptions, failed `assert`s, out-of-range
  indexing) is modelled in `Except String`; the error string carries the
  Python message (or the exception class name, for bare asserts and
  indexing errors).
* The Python `FreePCBfile` stores the line list reversed and pops from
  the end; the model stores the same lines in forward order with the
  current line at the head, which is the identical data structure up to
  the reversal.
* `while` loops are modelled as fuel-indexed structural recursions; the
  top-level entry points pass ample fuel (each loop iteration consumes
  at least one input line).
-/

deriving instance DecidableEq for Except

namespace Freepcb

/-- The character code of the double-quote character. -/
def qchar : Char := Char.ofNat 34

/-- Python `str.isspace` on the characters `str.strip` removes:
space, tab, newline, carriage return, vertical tab, form feed. -/
def pyIsSpace (c : Char) : Bool :=
  c = ' ' || c = '\t' || c = '\n' || c = '\r' || c = Char.ofNat 11 || c = Char.ofNat 12

/-- Python `str.lstrip()` on a character list. -/
def pyLStripL (l : List Char) : List Char := l.dropWhile pyIsSpace

/-- Python `str.rstrip()` on a character list. -/
def pyRStripL (l : List Char) : List Char := (l.reverse.dropWhile pyIsSpace).reverse

/-- Python `str.strip()`. -/
def pyStrip (s : String) : String := String.mk (pyRStripL (pyLStripL s.toList))

/-- Python `str.rstrip()`. -/
def pyRStrip (s : String) : String := String.mk (pyRStripL s.toList)

/-- Python `str.lstrip()`. -/
def pyLStrip (s : String) : String := String.mk (pyLStripL s.toList)

/-- Split a character list at the first occurrence of `sep`; `none` when
`sep` does not occur. -/
def splitAtChar : List Char → Char → Option (List Char × List Char)
  | [], _ => none
  | c :: rest, sep =>
    if c = sep then some ([], rest)
    else match splitAtChar rest sep with
      | none => none
      | some (a, b) => some (c :: a, b)

/-- Python `str.partition(sep)` for a one-character separator: the part
before the first occurrence, the separator, and the part after; when the
separator is absent, `(s, "", "")`. -/
def pyPartition (s : String) (sep : Char) : String × String × String :=
  match splitAtChar s.toList sep with
  | none => (s, "", "")
  | some (a, b) => (String.mk a, String.mk [sep], String.mk b)

/-- Python `s.startswith(p)`. -/
def pyStartsWith (s p : String) : Bool := s.toList.take p.toList.length = p.toList

/-- Python `s.endswith(p)`. -/
def pyEndsWith (s p : String) : Bool := p.toList.isSuffixOf s.toList

/-- Python `c in s` for a single character. -/
def pyIn (c : Char) (s : String) : Bool := s.toList.contains c

/-- Python `str.split()` with no argument (split on whitespace runs,
discarding empty pieces); fuel-indexed worker. -/
def pySplitWsAux : Nat → List Char → List String
  | 0, _ => []
  | fuel + 1, l =>
    match l.dropWhile pyIsSpace with
    | [] => []
    | c :: rest =>
      let tok := (c :: rest).takeWhile (fun x => !pyIsSpace x)
      String.mk tok :: pySplitWsAux fuel ((c :: rest).drop tok.length)

/-- Python `str.split()` with no argument. -/
def pySplitWs (s : String) : List String := pySplitWsAux (s.toList.length + 1) s.toList

/-- The numeric value of a decimal digit character, when it is one. -/
def digitVal (c : Char) : Option Nat :=
  if 48 ≤ c.toNat ∧ c.toNat ≤ 57 then some (c.toNat - 48) else none

/-- Accumulate a digit run into a natural number; `none` on a non-digit. -/
def digitsToNat : List Char → Nat → Option Nat
  | [], acc => some acc
  | c :: rest, acc =>
    match digitVal c with
    | none => none
    | some d => digitsToNat rest (acc * 10 + d)

/-- Python `int(s)` on a decimal string literal: optional surrounding
whitespace, optional sign, a nonempty digit run; anything else raises
`ValueError`.  (The underscore digit separators Python also accepts never
occur in the program's inputs and are not modelled.) -/
def pyParseInt (s : String) : Except String Int :=
  let l := (pyStrip s).toList
  match l with
  | [] => .error "ValueError"
  | c :: rest =>
    let (neg, digits) :=
      if c = Char.ofNat 45 then (true, rest)
      else if c = Char.ofNat 43 then (false, rest)
      else (false, l)
    match digits, digitsToNat digits 0 with
    | [], _ => .error "ValueError"
    | _, none => .error "ValueError"
    | _, some n => .ok (if neg then -(n : Int) else (n : Int))

/-- Python `float(s)` on a plain decimal literal (optional sign, digits
with an optional fractional part, optional decimal exponent), the only
floats the program's side files carry; the value is exact as a rational.
Anything else raises `ValueError`. -/
def pyParseFloat (s : String) : Except String ℚ :=
  let l := (pyStrip s).toList
  let (neg, l₁) :=
    match l with
    | c :: rest =>
      if c = Char.ofNat 45 then (true, rest)
      else if c = Char.ofNat 43 then (false, rest)
      else (false, l)
    | [] => (false, l)
  let intDigits := l₁.takeWhile (fun c => (digitVal c).isSome)
  let afterInt := l₁.drop intDigits.length
  let (fracDigits, afterFrac) :=
    match afterInt with
    | c :: rest =>
      if c = Char.ofNat 46 then
        let fd := rest.takeWhile (fun x => (digitVal x).isSome)
        (fd, rest.drop fd.length)
      else ([], afterInt)
    | [] => ([], afterInt)
  if intDigits.length + fracDigits.length = 0 then .error "ValueError"
  else
    let mantissa : Option Nat := digitsToNat (intDigits ++ fracDigits) 0
    let expo : Except String Int :=
      match afterFrac with
      | [] => .ok 0
      | c :: rest =>
        if c = 'e' ∨ c = 'E' then pyParseInt (String.mk rest)
        else .error "ValueError"
    match mantissa, expo with
    | some m, .ok e =>
      let base : ℚ := (m : ℚ) / ((10 : ℚ) ^ fracDigits.length)
      let scaled : ℚ :=
        if 0 ≤ e then base * (10 : ℚ) ^ e.toNat else base / (10 : ℚ) ^ (-e).toNat
      .ok (if neg then -scaled else scaled)
    | _, _ => .error "ValueError"

/-- `parse_string` (freepcb2pretty.py:113): grab a string, stripping it
of quotes; return the string and the number of characters consumed.
Indexing `s[0]` of an empty string raises `IndexError`. -/
def parse_string (s : String) : Except String (String × Nat) :=
  match s.toList with
  | [] => .error "IndexError"
  | c :: rest =>
    if c ≠ qchar then
      let string := (pyPartition s ' ').1
      .ok (pyStrip string, string.toList.length + 1)
    else
      match rest.findIdx? (fun x => x = qchar) with
      | none => .ok (String.mk rest, s.toList.length)
      | some i =>
        let beyond := rest.drop (i + 1)
        let extra_garbage := (beyond.takeWhile pyIsSpace).length
        .ok (String.mk (rest.take i), (i + 1) + 1 + extra_garbage)

/-- `to_mm` (freepcb2pretty.py:130): integer nanometres to millimetres. -/
def to_mm (n : ℚ) : ℚ := n / 1000000

/-- `from_mm` (freepcb2pretty.py:137): millimetres to nanometres. -/
def from_mm (n : ℚ) : ℚ := n * 1000000

/-- Python's binary `min` on two numbers. -/
def pymin (a b : ℚ) : ℚ := if a ≤ b then a else b

/-- Python's binary `max` on two numbers. -/
def pymax (a b : ℚ) : ℚ := if b ≤ a then a else b

/-- Python `min` over a nonempty list (a fold of the binary `min`). -/
def pyminList (x : ℚ) (l : List ℚ) : ℚ := l.foldl pymin x

/-- Python `max` over a nonempty list. -/
def pymaxList (x : ℚ) (l : List ℚ) : ℚ := l.foldl pymax x

/-- Python `int(x)` on a float: truncation toward zero. -/
def pyTrunc (q : ℚ) : Int := if 0 ≤ q then ⌊q⌋ else -⌊-q⌋

/-- A `Pad` record (freepcb2pretty.py:566): shape code, width, the two
length fields and the corner radius, all integer nanometres. -/
structure Pad where
  Shape : Int
  Width : Int
  Len1 : Int
  Len2 : Int
  CornRad : Int
deriving DecidableEq

/-- A `Pin` (freepcb2pretty.py:426): owning module name, pin name, drill
diameter (0 = surface mount), coordinates, angle, and up to three pads. -/
structure Pin where
  ModName : String
  Name : String
  DrillDiam : Int
  Coords : Int × Int
  Angle : Int
  TopPad : Option Pad
  InnerPad : Option Pad
  BottomPad : Option Pad
deriving DecidableEq

/-- A `Polyline` (freepcb2pretty.py:345).  Parsed points are integer
nanometres; the synthesized courtyard carries expanded (rational)
coordinates, so points are stored as rationals. -/
structure Polyline where
  Points : List (ℚ × ℚ)
  Linewidth : Option ℚ
  Closed : Bool
  Layer : String
  KicadLinewidth : ℚ
deriving DecidableEq

/-- A graphic element of a module: a polyline or a pin. -/
inductive Graphic
  | poly : Polyline → Graphic
  | pin : Pin → Graphic
deriving DecidableEq

/-- A `PCBmodule` (freepcb2pretty.py:171) with the fields `__init__`
initialises.  `tedit` is the edit timestamp (`time.time()` at parse
time, replaced by a hash under the deterministic-timestamp option). -/
structure PCBmodule where
  Name : String := ""
  Author : String := ""
  Source : String := ""
  Description : String := ""
  Units : Option String := none
  SelectionRect : Option String := none
  RefText : Option String := none
  ValText : String := ""
  Centroid : String := "0 0 0 0"
  Graphics : List Graphic := []
  ThreeDName : Option String := none
  ThreeDScale : List ℚ := [1, 1, 1]
  ThreeDOffset : List ℚ := [0, 0, 0]
  ThreeDRot : List ℚ := [0, 0, 0]
  tedit : ℚ := 0
deriving DecidableEq

/-- Set a module's edit timestamp (the last assignment of
`PCBmodule.__init__`, freepcb2pretty.py:251). -/
def setTedit (t : ℚ) (m : PCBmodule) : PCBmodule := { m with tedit := t }

/-- The command-line options the conversion reads (`args` in `main`).
The two exception lists hold the match predicates of the compiled
regular expressions (`regex.match`, anchored at the start of the module
name); the regex engine itself is external library code, so a pattern is
modelled by its match predicate. -/
structure Opts where
  roundedpads : Option String
  rpexceptions : List (String → Bool)
  rcexceptions : List (String → Bool)
  strip_lmn : Bool
  courtyard : Option ℚ
  threedmap : Option (List String)
  hashtime : Bool

/-- `FreePCBfile` (freepcb2pretty.py:587): the remaining (rstripped)
lines, current line first, and the 1-based line counter.  (Python keeps
the list reversed and pops from the end; popping the head here is the
same operation.) -/
structure FPFile where
  File : List String
  Lineno : Nat
deriving DecidableEq

/-- The blank-skipping loop shared by `get_string` and `at_end`
(freepcb2pretty.py:598 and 632): pop leading blank lines, counting them. -/
def skipBlanksL : List String → Nat → List String × Nat
  | [], n => ([], n)
  | l :: rest, n =>
    if pyStrip l = "" then skipBlanksL rest (n + 1) else (l :: rest, n)

/-- Blank-skipping on the reader state. -/
def skipBlanks (st : FPFile) : FPFile :=
  let (f, n) := skipBlanksL st.File st.Lineno
  ⟨f, n⟩

/-- `FreePCBfile.get_string` (freepcb2pretty.py:595): skip blank lines,
pop the current line, split it at the first `:`, strip both halves,
strip one level of quotes from the value when it both starts and ends
with a double quote, and raise when the value is blank.  NOTE: the
`allow_blank` parameter is accepted but never read by the source. -/
def get_string (allow_blank : Bool) (st : FPFile) :
    Except String (String × String × FPFile) :=
  let st₁ := skipBlanks st
  match st₁.File with
  | [] => .error "AssertionError"
  | line :: rest => do
    let st₂ : FPFile := ⟨rest, st₁.Lineno + 1⟩
    let (k, _, v) := pyPartition line ':'
    let key := pyStrip k
    let value := pyStrip v
    let value ←
      if pyStartsWith value (String.mk [qchar]) ∧ pyEndsWith value (String.mk [qchar]) then
        (parse_string value).map Prod.fst
      else pure value
    if value = "" then
      .error ("Line " ++ toString (st₂.Lineno - 1) ++ ": expected value")
    else
      .ok (key, value, st₂)
  -- `allow_blank` intentionally unused, as in the source


/-- `FreePCBfile.indent_level` (freepcb2pretty.py:615): half-indents of
the current line (tab = 2, space = 1), divided by two.  Indexing
`File[-1]` of an exhausted reader raises `IndexError`. -/
def indentHalf : List Char → Nat
  | [] => 0
  | c :: rest =>
    if c = '\t' then 2 + indentHalf rest
    else if c = ' ' then 1 + indentHalf rest
    else 0

/-- `indent_level` on the reader state. -/
def indent_level (st : FPFile) : Except String Nat :=
  match st.File with
  | [] => .error "IndexError"
  | line :: _ => .ok (indentHalf line.toList / 2)

/-- `FreePCBfile.at_end` (freepcb2pretty.py:631): skip blank lines
(a side effect kept in the returned state), then test emptiness. -/
def at_end (st : FPFile) : Bool × FPFile :=
  let st₁ := skipBlanks st
  (st₁.File.isEmpty, st₁)

/-- `FreePCBfile.peek_key` (freepcb2pretty.py:638): the key of the
current line, without consuming it; asserts that a line remains. -/
def peek_key (st : FPFile) : Except String String :=
  match st.File with
  | [] => .error "AssertionError"
  | line :: _ => .ok (pyStrip (pyPartition line ':').1)

/-- Parse a record value as a list of integers (`[int(i) for i in
value.split()]`), raising the caller's message on `ValueError` or on a
wrong count. -/
def parseIntsExactly (value : String) (count : Nat) (msg : String) :
    Except String (List Int) :=
  match (pySplitWs value).mapM pyParseInt with
  | .error _ => .error msg
  | .ok l => if l.length ≠ count then .error msg else .ok l

/-- The error message of the three-integer polyline records
(freepcb2pretty.py:366). -/
def threeIntsMsg (lineno : Nat) : String :=
  "Line " ++ toString lineno ++ " must contain a list of three integers."

/-- The corner loop of `Polyline.create_from_freepcb`
(freepcb2pretty.py:377): while the next key is `next_corner`, consume it
and append its point (the third integer, a side style, is discarded). -/
def polylineCorners : Nat → Polyline → FPFile → Except String (Polyline × FPFile)
  | 0, _, _ => .error "out of fuel"
  | fuel + 1, p, st => do
    let k ← peek_key st
    if k = "next_corner" then do
      let (key, value, st₁) ← get_string false st
      if key ≠ "next_corner" then .error "AssertionError"
      else do
        let ints ← parseIntsExactly value 3 (threeIntsMsg (st₁.Lineno - 1))
        match ints with
        | [x, y, _] =>
          polylineCorners fuel { p with Points := p.Points ++ [((x : ℚ), (y : ℚ))] } st₁
        | _ => .error "unreachable"
    else .ok (p, st)

/-- `Polyline.create_from_freepcb` (freepcb2pretty.py:356): the
`outline_polyline` record (legacy width field ignored, first point
kept), the corner loop, and the optional `close_polyline` record, which
sets the flag and repeats the first point. -/
def polylineCreate (fuel : Nat) (st : FPFile) : Except String (Polyline × FPFile) := do
  let (key, value, st₁) ← get_string false st
  if key ≠ "outline_polyline" then .error "AssertionError"
  else do
    let ints ← parseIntsExactly value 3 (threeIntsMsg (st₁.Lineno - 1))
    match ints with
    | [_, x, y] => do
      let p : Polyline :=
        { Points := [((x : ℚ), (y : ℚ))], Linewidth := some (15 / 100 : ℚ),
          Closed := false, Layer := "F.SilkS", KicadLinewidth := (15 / 100 : ℚ) }
      let (p, st₂) ← polylineCorners fuel p st₁
      let k ← peek_key st₂
      if k = "close_polyline" then do
        let (_, _, st₃) ← get_string false st₂
        match p.Points with
        | [] => .error "IndexError"
        | p0 :: _ => .ok ({ p with Closed := true, Points := p.Points ++ [p0] }, st₃)
      else .ok (p, st₂)
    | _ => .error "unreachable"

/-- `Pad.__init__` (freepcb2pretty.py:566): four or five integers, the
absent fifth (corner radius) defaulting to 0. -/
def padCreate (value : String) (st : FPFile) : Except String Pad :=
  let msg := "Line " ++ toString (st.Lineno - 1) ++
    " must contain a list of four or five integers."
  match (pySplitWs value).mapM pyParseInt with
  | .error _ => .error msg
  | .ok l =>
    match l with
    | [a, b, c, d] => .ok ⟨a, b, c, d, 0⟩
    | [a, b, c, d, e] => .ok ⟨a, b, c, d, e⟩
    | _ => .error msg

/-- The pad loop of `Pin.create_from_freepcb` (freepcb2pretty.py:465):
while the next key ends in `_pad`, consume a `top_pad`, `inner_pad` or
`bottom_pad` record; any other `_pad` key is fatal. -/
def pinPads : Nat → Pin → FPFile → Except String (Pin × FPFile)
  | 0, _, _ => .error "out of fuel"
  | fuel + 1, pin, st => do
    let k ← peek_key st
    if pyEndsWith k "_pad" then do
      let (key, value, st₁) ← get_string false st
      if key = "top_pad" then do
        let pad ← padCreate value st₁
        pinPads fuel { pin with TopPad := some pad } st₁
      else if key = "inner_pad" then do
        let pad ← padCreate value st₁
        pinPads fuel { pin with InnerPad := some pad } st₁
      else if key = "bottom_pad" then do
        let pad ← padCreate value st₁
        pinPads fuel { pin with BottomPad := some pad } st₁
      else
        .error ("Unexpected key \"" ++ key ++ "\" on line " ++
          toString (st₁.Lineno - 1) ++ ".")
    else .ok (pin, st)

/-- `Pin.create_from_freepcb` (freepcb2pretty.py:442): the packed `pin`
record (quoted name, then exactly four integers: drill diameter, x, y,
angle), followed by the pad loop. -/
def pinCreate (fuel : Nat) (modname : String) (st : FPFile) :
    Except String (Pin × FPFile) := do
  let (key, value, st₁) ← get_string false st
  if key ≠ "pin" then .error "AssertionError"
  else do
    let (name, length) ← parse_string value
    let value₁ := String.mk (value.toList.drop length)
    let ints ← parseIntsExactly value₁ 4
      ("Line " ++ toString (st₁.Lineno - 1) ++ " must contain a list of four integers.")
    match ints with
    | [d, x, y, a] =>
      let pin : Pin :=
        { ModName := modname, Name := name, DrillDiam := d, Coords := (x, y),
          Angle := a, TopPad := none, InnerPad := none, BottomPad := none }
      pinPads fuel pin st₁
    | _ => .error "unreachable"

/-- Python truthiness of an optional string (`assert self.RefText`):
`None` and the empty string are falsy. -/
def optTruthy : Option String → Bool
  | none => false
  | some s => s ≠ ""

/-- The unexpected-key error of the module loops (freepcb2pretty.py:201
and 241). -/
def unexpectedKey (key : String) (lineno : Nat) : String :=
  "Unexpected key \"" ++ key ++ "\" on line " ++ toString lineno ++ "."

/-- The header loop of `PCBmodule.__init__` (freepcb2pretty.py:190):
while the indentation level is 0 and the reader is not at end, consume
`name`/`author`/`source`/`description` records.  The indentation test
runs first, so an exhausted reader raises `IndexError` here. -/
def headerLoop : Nat → PCBmodule → FPFile → Except String (PCBmodule × FPFile)
  | 0, _, _ => .error "out of fuel"
  | fuel + 1, m, st => do
    let lvl ← indent_level st
    if lvl ≠ 0 then .ok (m, st)
    else
      let (e, st₁) := at_end st
      if e then .ok (m, st₁)
      else do
        let (key, value, st₂) ← get_string false st₁
        if key = "name" then headerLoop fuel { m with Name := value } st₂
        else if key = "author" then headerLoop fuel { m with Author := value } st₂
        else if key = "source" then headerLoop fuel { m with Source := value } st₂
        else if key = "description" then headerLoop fuel { m with Description := value } st₂
        else .error (unexpectedKey key (st₂.Lineno - 1))

/-- The body loop of `PCBmodule.__init__` (freepcb2pretty.py:217): while
the indentation level is positive and the reader is not at end, dispatch
on the peeked key.  The indentation test runs first, so an exhausted
reader raises `IndexError` here. -/
def bodyLoop : Nat → PCBmodule → FPFile → Except String (PCBmodule × FPFile)
  | 0, _, _ => .error "out of fuel"
  | fuel + 1, m, st => do
    let lvl ← indent_level st
    if lvl = 0 then .ok (m, st)
    else
      let (e, st₁) := at_end st
      if e then .ok (m, st₁)
      else do
        let key ← peek_key st₁
        if key = "units" then do
          let (_, value, st₂) ← get_string false st₁
          bodyLoop fuel { m with Units := some value } st₂
        else if key = "sel_rect" then do
          let (_, value, st₂) ← get_string false st₁
          bodyLoop fuel { m with SelectionRect := some value } st₂
        else if key = "ref_text" then do
          let (_, value, st₂) ← get_string false st₁
          bodyLoop fuel { m with RefText := some value } st₂
        else if key = "value_text" then do
          let (_, value, st₂) ← get_string false st₁
          bodyLoop fuel { m with ValText := value } st₂
        else if key = "centroid" then do
          let (_, value, st₂) ← get_string false st₁
          bodyLoop fuel { m with Centroid := value } st₂
        else if key = "outline_polyline" then do
          let (p, st₂) ← polylineCreate fuel st₁
          bodyLoop fuel { m with Graphics := m.Graphics ++ [.poly p] } st₂
        else if key = "n_pins" then do
          let (_, _, st₂) ← get_string true st₁
          bodyLoop fuel m st₂
        else if key = "pin" then do
          let (p, st₂) ← pinCreate fuel m.Name st₁
          bodyLoop fuel { m with Graphics := m.Graphics ++ [.pin p] } st₂
        else .error (unexpectedKey key (st₁.Lineno - 1))

/-- `PCBmodule.__init__` without the final timestamp assignment: header
loop, header asserts, body loop, format asserts (freepcb2pretty.py:172-249). -/
def parseModuleCore (fuel : Nat) (st : FPFile) : Except String (PCBmodule × FPFile) := do
  let (m, st₁) ← headerLoop fuel {} st
  if m.Name = "" then .error "AssertionError"
  else if m.Author = "" then .error "AssertionError"
  else if m.Source = "" then .error "AssertionError"
  else do
    let (m, st₂) ← bodyLoop fuel m st₁
    if m.Units ≠ some "NM" then .error "AssertionError"
    else if ¬ optTruthy m.SelectionRect then .error "AssertionError"
    else if ¬ optTruthy m.RefText then .error "AssertionError"
    else if m.Centroid ≠ "0 0 0 0" then .error "AssertionError"
    else .ok (m, st₂)

/-- `PCBmodule.__init__` (freepcb2pretty.py:172): the core parse, then
`self.tedit = time.time()` with the wall clock passed explicitly. -/
def parsePCBmodule (fuel : Nat) (now : ℚ) (st : FPFile) :
    Except String (PCBmodule × FPFile) :=
  (parseModuleCore fuel st).map (fun r => (setTedit now r.1, r.2))

/-- The module loop of `Library.__init__` (freepcb2pretty.py:148): while
not at end, parse one module. -/
def libraryLoop : Nat → ℚ → FPFile → Except String (List PCBmodule × FPFile)
  | 0, _, _ => .error "out of fuel"
  | fuel + 1, now, st =>
    let (e, st₁) := at_end st
    if e then .ok ([], st₁)
    else do
      let (m, st₂) ← parsePCBmodule fuel now st₁
      let (ms, st₃) ← libraryLoop fuel now st₂
      .ok (m :: ms, st₃)

/-- `Library(FreePCBfile(f), opts)` (freepcb2pretty.py:140 and 590):
rstrip every input line, then run the module loop. -/
def parseLibrary (lines : List String) (now : ℚ) : Except String (List PCBmodule) :=
  let st : FPFile := ⟨lines.map pyRStrip, 1⟩
  (libraryLoop (lines.length + 2) now st).map Prod.fst

/-- The duplicate scan of `Library.__iadd__` (freepcb2pretty.py:158):
the name of the first module of the left library that also names a
module of the right one. -/
def findDup : List PCBmodule → List PCBmodule → Option String
  | [], _ => none
  | i :: rest, others =>
    if others.any (fun j => i.Name = j.Name) then some i.Name
    else findDup rest others

/-- `Library.__iadd__` (freepcb2pretty.py:156): fail on the first
duplicate name, otherwise concatenate the module lists. -/
def libAdd (l₁ l₂ : List PCBmodule) : Except String (List PCBmodule) :=
  match findDup l₁ l₂ with
  | some n => .error ("Duplicate module name \"" ++ n ++ "\"")
  | none => .ok (l₁ ++ l₂)

/-- `PCBmodule.strip_lmn` (freepcb2pretty.py:314): drop the final
character when it is one of `LMNlmn`; `Name[-1]` on an empty name raises
`IndexError`. -/
def strip_lmn (m : PCBmodule) : Except String PCBmodule :=
  match m.Name.toList.getLast? with
  | none => .error "IndexError"
  | some c =>
    if pyIn c "LMNlmn" then .ok { m with Name := String.mk m.Name.toList.dropLast }
    else .ok m

/-- `Library.strip_lmn` (freepcb2pretty.py:166): over every module. -/
def libStripLmn (ms : List PCBmodule) : Except String (List PCBmodule) :=
  ms.mapM strip_lmn

/-- `Pin.bounding_box` (freepcb2pretty.py:551): a box of the top pad's
width and length sum centred on the pin, the two swapped at angle 90;
any other nonzero angle fails the assert, and a missing top pad raises
`AttributeError`. -/
def pinBox (pin : Pin) : Except String (ℚ × ℚ × ℚ × ℚ) := do
  match pin.TopPad with
  | none => .error "AttributeError"
  | some pad =>
    let sx : Int := pad.Width
    let sy : Int := pad.Len1 + pad.Len2
    let (sx, sy) := if pin.Angle = 90 then (sy, sx) else (sx, sy)
    if pin.Angle ≠ 90 ∧ pin.Angle ≠ 0 then .error "AssertionError"
    else
      .ok ((pin.Coords.1 : ℚ) - (sy : ℚ) / 2, (pin.Coords.1 : ℚ) + (sy : ℚ) / 2,
           (pin.Coords.2 : ℚ) + (sx : ℚ) / 2, (pin.Coords.2 : ℚ) - (sx : ℚ) / 2)

/-- `Polyline.bounding_box` (freepcb2pretty.py:418): min/max over the
points; Python `min`/`max` of an empty sequence raise `ValueError`. -/
def polyBox (p : Polyline) : Except String (ℚ × ℚ × ℚ × ℚ) :=
  match p.Points with
  | [] => .error "ValueError"
  | q :: rest =>
    .ok (pyminList q.1 (rest.map Prod.fst), pymaxList q.1 (rest.map Prod.fst),
         pymaxList q.2 (rest.map Prod.snd), pyminList q.2 (rest.map Prod.snd))

/-- The bounding box of one graphic element. -/
def graphicBox : Graphic → Except String (ℚ × ℚ × ℚ × ℚ)
  | .poly p => polyBox p
  | .pin p => pinBox p

/-- `PCBmodule.bounding_box` (freepcb2pretty.py:319): the union of the
elements' boxes; empty `Graphics` makes `min([])` raise `ValueError`. -/
def moduleBox (m : PCBmodule) : Except String (ℚ × ℚ × ℚ × ℚ) := do
  let boxes ← m.Graphics.mapM graphicBox
  match boxes with
  | [] => .error "ValueError"
  | b :: bs =>
    .ok (pyminList b.1 (bs.map (fun x => x.1)),
         pymaxList b.2.1 (bs.map (fun x => x.2.1)),
         pymaxList b.2.2.1 (bs.map (fun x => x.2.2.1)),
         pyminList b.2.2.2 (bs.map (fun x => x.2.2.2)))

/-- `PCBmodule.add_courtyard` (freepcb2pretty.py:330): expand the
bounding box outward by `from_mm spacing` on all four sides and append
the closed rectangle on layer `F.CrtYd`, line width 0.05. -/
def add_courtyard (spacing : ℚ) (m : PCBmodule) : Except String PCBmodule := do
  let (left, right, top, bottom) ← moduleBox m
  let left := left - from_mm spacing
  let right := right + from_mm spacing
  let top := top + from_mm spacing
  let bottom := bottom - from_mm spacing
  let cy : Polyline :=
    { Points := [(left, top), (right, top), (right, bottom), (left, bottom), (left, top)],
      Linewidth := none, Closed := false, Layer := "F.CrtYd",
      KicadLinewidth := (5 / 100 : ℚ) }
  .ok { m with Graphics := m.Graphics ++ [.poly cy] }

/-- Python list indexing with assignment, `lst[i] = v`, for the
three-component 3D vectors: negative indices count from the end, and an
index out of `[-len, len)` raises `IndexError`. -/
def pySetList (l : List ℚ) (i : Int) (v : ℚ) : Except String (List ℚ) :=
  if i < -(l.length : Int) ∨ (l.length : Int) ≤ i then .error "IndexError"
  else .ok (l.set (if i < 0 then (i + l.length).toNat else i.toNat) v)

/-- The state of `process_3dmap`: the library's modules and the index of
the currently selected one (Python holds a reference to it; the list is
updated in place at that index). -/
structure Map3dState where
  Modules : List PCBmodule
  current : Option Nat
deriving DecidableEq

/-- Update the currently selected module of the 3D-map state. -/
def updCurrent (s : Map3dState) (i : Nat) (f : PCBmodule → Except String PCBmodule) :
    Except String Map3dState := do
  match s.Modules.get? i with
  | none => .error "IndexError"
  | some m => do
    let m ← f m
    .ok { s with Modules := s.Modules.set i m }

/-- The cannot-specify-before-module-name error (freepcb2pretty.py:662). -/
def noModuleMsg (lineno : Nat) : String :=
  "3D map (line " ++ toString lineno ++ "): cannot specify parameters before module name"

/-- One record of `process_3dmap` (freepcb2pretty.py:650): dispatch on
the key of a consumed `key: value` record.  `lineno` is the reader's
line counter after the consume (the messages print `Lineno - 1`). -/
def map3dStep (key value : String) (lineno : Nat) (s : Map3dState) :
    Except String Map3dState :=
  if key = "mod" then
    match s.Modules.findIdx? (fun m => m.Name = value) with
    | some i => .ok { s with current := some i }
    | none =>
      .error ("3D map (line " ++ toString (lineno - 1) ++ "): couldn't find module \"" ++
        value ++ "\"")
  else if key = "3dmod" then
    match s.current with
    | none => .error (noModuleMsg (lineno - 1))
    | some i => updCurrent s i (fun m => .ok { m with ThreeDName := some value })
  else if pyStartsWith key "rot" then
    match s.current with
    | none => .error (noModuleMsg (lineno - 1))
    | some i =>
      match key.toList.get? 3 with
      | none => .error "IndexError"
      | some c => do
        let q ← pyParseFloat value
        updCurrent s i (fun m => do
          let v ← pySetList m.ThreeDRot ((c.toNat : Int) - 120) q
          .ok { m with ThreeDRot := v })
  else if pyStartsWith key "sca" then
    match s.current with
    | none => .error (noModuleMsg (lineno - 1))
    | some i =>
      match key.toList.get? 3 with
      | none => .error "IndexError"
      | some c => do
        let q ← pyParseFloat value
        updCurrent s i (fun m => do
          let v ← pySetList m.ThreeDScale ((c.toNat : Int) - 120) q
          .ok { m with ThreeDScale := v })
  else if pyStartsWith key "off" then
    match s.current with
    | none => .error (noModuleMsg (lineno - 1))
    | some i =>
      match key.toList.get? 3 with
      | none => .error "IndexError"
      | some c => do
        let q ← pyParseFloat value
        updCurrent s i (fun m => do
          let v ← pySetList m.ThreeDOffset ((c.toNat : Int) - 120) q
          .ok { m with ThreeDOffset := v })
  else
    .error ("3D map (line " ++ toString (lineno - 1) ++ "): unknown key \"" ++ key ++ "\"")

/-- The record loop of `process_3dmap` (freepcb2pretty.py:650). -/
def map3dLoop : Nat → Map3dState → FPFile → Except String Map3dState
  | 0, _, _ => .error "out of fuel"
  | fuel + 1, s, st =>
    let (e, st₁) := at_end st
    if e then .ok s
    else do
      let (key, value, st₂) ← get_string false st₁
      let s₁ ← map3dStep key value st₂.Lineno s
      map3dLoop fuel s₁ st₂

/-- `process_3dmap` (freepcb2pretty.py:644): read all 3D mappings from
the map file's lines, applying them to the library's modules. -/
def process3dmap (mapLines : List String) (ms : List PCBmodule) :
    Except String (List PCBmodule) := do
  let st : FPFile := ⟨mapLines.map pyRStrip, 1⟩
  let s ← map3dLoop (mapLines.length + 2) ⟨ms, none⟩ st
  .ok s.Modules

/-- The generic nested-expression value the emitter produces: a bare
symbol (`SexpSymbol`), a quoted string, a Python `int`, a Python float
(modelled as an exact rational), or a list. -/
inductive Sexp
  | sym : String → Sexp
  | str : String → Sexp
  | int : Int → Sexp
  | num : ℚ → Sexp
  | list : List Sexp → Sexp

/-- The hexadecimal digit characters, uppercase. -/
def hexDigit (n : Nat) : Char :=
  if n < 10 then Char.ofNat (48 + n) else Char.ofNat (65 + (n - 10))

/-- The uppercase hexadecimal digits of `n`, most significant first. -/
def hexDigits : Nat → List Char → List Char
  | 0, acc => acc
  | n + 1, acc => hexDigits ((n + 1) / 16) (hexDigit ((n + 1) % 16) :: acc)

/-- Python `"%08X" % n` for a nonnegative integer, and `-` followed by
the digits padded to width seven for a negative one (Python pads the
whole rendering, sign included, to width eight). -/
def hex8 (i : Int) : String :=
  let digs (n : Nat) : List Char := if n = 0 then ['0'] else hexDigits n []
  if i < 0 then
    let d := digs (-i).toNat
    String.mk ('-' :: List.replicate (7 - d.length) '0' ++ d)
  else
    let d := digs i.toNat
    String.mk (List.replicate (8 - d.length) '0' ++ d)

/-- The decimal digits of a terminating fraction `r / d` (`r < d`), most
significant first; at most `fuel` digits (every value the program emits
terminates well within the fuel). -/
def fracDigitsOf : Nat → Nat → Nat → List Char
  | 0, _, _ => []
  | fuel + 1, r, d =>
    if r = 0 then []
    else
      let r10 := r * 10
      Char.ofNat (48 + r10 / d) :: fracDigitsOf fuel (r10 % d) d

/-- A model of Python `str(x)` on a float, for the exact decimal values
the program manipulates: sign, integer part, a point, and the fraction
digits (`.0` when the value is integral).  Python's shortest-round-trip
rendering and its exponent notation for extreme magnitudes are not
modelled; every number the program emits is a plain short decimal. -/
def renderQ (q : ℚ) : String :=
  let n := q.num.natAbs
  let d := q.den
  let intPart := toString (n / d)
  let frac := fracDigitsOf 64 (n % d) d
  let frac := if frac = [] then "0" else String.mk frac
  (if q.num < 0 then "-" else "") ++ intPart ++ "." ++ frac

/-- The two-character lowercase hexadecimal rendering of a byte. -/
def hex2 (n : Nat) : String :=
  String.mk [Char.ofNat (if n / 16 < 10 then 48 + n / 16 else 87 + n / 16),
             Char.ofNat (if n % 16 < 10 then 48 + n % 16 else 87 + n % 16)]

/-- Python `s.encode("unicode_escape").decode("ascii")`, as `SexpDump`
applies it to a quoted string: backslash and the control characters get
backslash escapes, other printable ASCII (the double quote included —
`unicode_escape` does not escape quotes) passes through, and non-ASCII
code points become `\xhh`/`\uhhhh`/`\Uhhhhhhhh`. -/
def escapeUnicode (s : String) : String :=
  String.join (s.toList.map (fun c =>
    let n := c.toNat
    if c = '\\' then "\\\\"
    else if c = '\n' then "\\n"
    else if c = '\r' then "\\r"
    else if c = '\t' then "\\t"
    else if n < 32 ∨ n = 127 then "\\x" ++ hex2 n
    else if n < 127 then String.mk [c]
    else if n < 256 then "\\x" ++ hex2 n
    else if n < 65536 then "\\u" ++ hex2 (n / 256) ++ hex2 (n % 256)
    else "\\U" ++ hex2 (n / 16777216) ++ hex2 (n / 65536 % 256) ++
      hex2 (n / 256 % 256) ++ hex2 (n % 256)))

mutual

/-- `SexpDump` (freepcb2pretty.py:81), rendered to a string instead of a
file: lists parenthesized and space-separated, strings quoted with
`unicode_escape`, symbols bare, numbers by Python `str`. -/
def sexpDump : Sexp → String
  | .sym s => s
  | .str s => "\"" ++ escapeUnicode s ++ "\""
  | .int n => toString n
  | .num q => renderQ q
  | .list xs => "(" ++ String.intercalate " " (sexpDumpList xs) ++ ")"

/-- `sexpDump` over the children of a list node. -/
def sexpDumpList : List Sexp → List String
  | [] => []
  | x :: xs => sexpDump x :: sexpDumpList xs

end

/-- Python `repr` of a string, as `repr` of a list applies it to the
strings inside `str(module.kicad_sexp())`: single-quoted (double-quoted
when the string contains a single quote and no double quote), with
backslash escapes for the delimiter, backslashes and control
characters.  Non-ASCII printable characters pass through (as in Python
3).  -/
def pyReprStr (s : String) : String :=
  let sq := Char.ofNat 39
  let useDq : Bool := s.toList.contains sq ∧ ¬ s.toList.contains qchar
  let delim := if useDq then qchar else sq
  let body := String.join (s.toList.map (fun c =>
    let n := c.toNat
    if c = '\\' then "\\\\"
    else if c = delim then "\\" ++ String.mk [c]
    else if c = '\n' then "\\n"
    else if c = '\r' then "\\r"
    else if c = '\t' then "\\t"
    else if n < 32 ∨ n = 127 then "\\x" ++ hex2 n
    else String.mk [c]))
  String.mk [delim] ++ body ++ String.mk [delim]

mutual

/-- Python `str(...)` of the nested list `kicad_sexp` returns, the exact
text `main` hashes under `--hash-time` (freepcb2pretty.py:802): `repr`
of lists, `SexpSymbol.__repr__` for symbols, `repr` for strings, `str`
for numbers. -/
def pyRepr : Sexp → String
  | .sym s => "SexpSymbol(" ++ pyReprStr s ++ ")"
  | .str s => pyReprStr s
  | .int n => toString n
  | .num q => renderQ q
  | .list xs => "[" ++ String.intercalate ", " (pyReprList xs) ++ "]"

/-- `pyRepr` over the children of a list node. -/
def pyReprList : List Sexp → List String
  | [] => []
  | x :: xs => pyRepr x :: pyReprList xs

end

/-- UTF-8 encoding of a string as a byte list (`.encode('utf8')`). -/
def utf8Encode (s : String) : List Nat :=
  (s.toList.map (fun c =>
    let n := c.toNat
    if n < 128 then [n]
    else if n < 2048 then [192 + n / 64, 128 + n % 64]
    else if n < 65536 then [224 + n / 4096, 128 + n / 64 % 64, 128 + n % 64]
    else [240 + n / 262144, 128 + n / 4096 % 64, 128 + n / 64 % 64, 128 + n % 64])).flatten

/-- `2^32`, the word modulus of MD5. -/
def M32 : Nat := 4294967296

/-- 32-bit left rotation (the operand is below `2^32`). -/
def rotl32 (x n : Nat) : Nat := (x * 2 ^ n + x / 2 ^ (32 - n)) % M32

/-- The MD5 round constants `K[i] = floor(2^32 * abs(sin(i+1)))`. -/
def md5K : List Nat :=
  [0xd76aa478, 0xe8c7b756, 0x242070db, 0xc1bdceee,
   0xf57c0faf, 0x4787c62a, 0xa8304613, 0xfd469501,
   0x698098d8, 0x8b44f7af, 0xffff5bb1, 0x895cd7be,
   0x6b901122, 0xfd987193, 0xa679438e, 0x49b40821,
   0xf61e2562, 0xc040b340, 0x265e5a51, 0xe9b6c7aa,
   0xd62f105d, 0x02441453, 0xd8a1e681, 0xe7d3fbc8,
   0x21e1cde6, 0xc33707d6, 0xf4d50d87, 0x455a14ed,
   0xa9e3e905, 0xfcefa3f8, 0x676f02d9, 0x8d2a4c8a,
   0xfffa3942, 0x8771f681, 0x6d9d6122, 0xfde5380c,
   0xa4beea44, 0x4bdecfa9, 0xf6bb4b60, 0xbebfbc70,
   0x289b7ec6, 0xeaa127fa, 0xd4ef3085, 0x04881d05,
   0xd9d4d039, 0xe6db99e5, 0x1fa27cf8, 0xc4ac5665,
   0xf4292244, 0x432aff97, 0xab9423a7, 0xfc93a039,
   0x655b59c3, 0x8f0ccc92, 0xffeff47d, 0x85845dd1,
   0x6fa87e4f, 0xfe2ce6e0, 0xa3014314, 0x4e0811a1,
   0xf7537e82, 0xbd3af235, 0x2ad7d2bb, 0xeb86d391]

/-- The MD5 per-round left-rotation amounts. -/
def md5S : List Nat :=
  [7, 12, 17, 22, 7, 12, 17, 22, 7, 12, 17, 22, 7, 12, 17, 22,
   5, 9, 14, 20, 5, 9, 14, 20, 5, 9, 14, 20, 5, 9, 14, 20,
   4, 11, 16, 23, 4, 11, 16, 23, 4, 11, 16, 23, 4, 11, 16, 23,
   6, 10, 15, 21, 6, 10, 15, 21, 6, 10, 15, 21, 6, 10, 15, 21]

/-- One of the 64 MD5 operations, on the state `(a, b, c, d)` with the
sixteen message words `M` of the current chunk. -/
def md5Step (M : List Nat) (st : Nat × Nat × Nat × Nat) (i : Nat) :
    Nat × Nat × Nat × Nat :=
  let (a, b, c, d) := st
  let (f, g) :=
    if i < 16 then ((b &&& c) ||| ((M32 - 1 - b) &&& d), i)
    else if i < 32 then ((d &&& b) ||| ((M32 - 1 - d) &&& c), (5 * i + 1) % 16)
    else if i < 48 then (b ^^^ c ^^^ d, (3 * i + 5) % 16)
    else (c ^^^ (b ||| (M32 - 1 - d)), (7 * i) % 16)
  let f := (f + a + md5K.getD i 0 + M.getD g 0) % M32
  (d, (b + rotl32 f (md5S.getD i 0)) % M32, b, c)

/-- Split a byte list into little-endian 32-bit words. -/
def bytesToWords : List Nat → List Nat
  | b0 :: b1 :: b2 :: b3 :: rest =>
    (b0 + 256 * (b1 + 256 * (b2 + 256 * b3))) :: bytesToWords rest
  | _ => []

/-- Process one 64-byte MD5 chunk. -/
def md5Chunk (st : Nat × Nat × Nat × Nat) (bytes : List Nat) :
    Nat × Nat × Nat × Nat :=
  let M := bytesToWords bytes
  let (a, b, c, d) := (List.range 64).foldl (md5Step M) st
  ((st.1 + a) % M32, (st.2.1 + b) % M32, (st.2.2.1 + c) % M32, (st.2.2.2 + d) % M32)

/-- The low `k` bytes of `v`, little-endian. -/
def leBytes : Nat → Nat → List Nat
  | 0, _ => []
  | k + 1, v => v % 256 :: leBytes k (v / 256)

/-- MD5 padding: a `0x80` byte, zeros to 56 mod 64, then the bit length
as a little-endian 64-bit value. -/
def md5Pad (msg : List Nat) : List Nat :=
  msg ++ 128 :: List.replicate ((56 + 64 - (msg.length + 1) % 64) % 64) 0 ++
    leBytes 8 ((8 * msg.length) % 2 ^ 64)

/-- Fold the chunk function over a padded message. -/
def md5Chunks : Nat → (Nat × Nat × Nat × Nat) → List Nat → Nat × Nat × Nat × Nat
  | 0, st, _ => st
  | fuel + 1, st, bytes =>
    match bytes with
    | [] => st
    | _ => md5Chunks fuel (md5Chunk st (bytes.take 64)) (bytes.drop 64)

/-- The 16-byte MD5 digest of a byte list (`hashlib.md5(...).digest()`). -/
def md5Digest (msg : List Nat) : List Nat :=
  let padded := md5Pad msg
  let st := md5Chunks (padded.length / 64 + 1)
    (0x67452301, 0xefcdab89, 0x98badcfe, 0x10325476) padded
  leBytes 4 st.1 ++ leBytes 4 st.2.1 ++ leBytes 4 st.2.2.1 ++ leBytes 4 st.2.2.2

/-- `struct.unpack("<L", md5sum[0:4])[0]` (freepcb2pretty.py:804): the
first four digest bytes as a little-endian 32-bit value. -/
def md5low32 (msg : List Nat) : Nat :=
  match md5Digest msg with
  | b0 :: b1 :: b2 :: b3 :: _ => b0 + 256 * (b1 + 256 * (b2 + 256 * b3))
  | _ => 0

/-- The rounded-pad shape selection of `Pin.kicad_sexp`
(freepcb2pretty.py:501-523) for a surface-mount pin: the exception
scans, then the precedence chain; a rounded-pads mode other than
`None`/`"all"`/`"allbut1"` fails the final assert. -/
def pinShape (opts : Opts) (pin : Pin) : Except String String :=
  let can_round_pads : Bool := ! opts.rpexceptions.any (fun p => p pin.ModName)
  let can_round_center : Bool := ! opts.rcexceptions.any (fun p => p pin.ModName)
  if opts.roundedpads = none then .ok "rect"
  else if (! can_round_center) ∧ pin.Coords = (0, 0) then .ok "rect"
  else if opts.roundedpads = some "all" then
    .ok (if can_round_pads then "oval" else "rect")
  else if opts.roundedpads = some "allbut1" then
    .ok (if can_round_pads then (if pin.Name = "1" then "rect" else "oval") else "rect")
  else .error "AssertionError"

/-- `Pin.kicad_sexp` (freepcb2pretty.py:490): a surface-mount pad (zero
drill) with the resolved shape, or a through-hole pad (rectangular for
pin "1", else circular) with its drill; the pad size comes from the top
pad, swapped at angle 90. -/
def pinKicadSexp (opts : Opts) (pin : Pin) : Except String (List Sexp) := do
  match pin.TopPad with
  | none => .error "AttributeError"
  | some pad =>
    let sx : Int := pad.Width
    let sy : Int := pad.Len1 + pad.Len2
    let (sx, sy) := if pin.Angle = 90 then (sy, sx) else (sx, sy)
    if pin.Angle ≠ 90 ∧ pin.Angle ≠ 0 then .error "AssertionError"
    else if pin.DrillDiam = 0 then do
      let shape ← pinShape opts pin
      .ok [.list [.sym "pad", .str pin.Name, .sym "smd", .sym shape,
        .list [.sym "at", .num (to_mm pin.Coords.1), .num (-(to_mm pin.Coords.2))],
        .list [.sym "size", .num (to_mm sy), .num (to_mm sx)],
        .list [.sym "layers", .str "F.Cu", .str "F.Paste", .str "F.Mask"]]]
    else
      let shape := if pin.Name = "1" then "rect" else "circle"
      .ok [.list [.sym "pad", .str pin.Name, .sym "thru_hole", .sym shape,
        .list [.sym "at", .num (to_mm pin.Coords.1), .num (-(to_mm pin.Coords.2))],
        .list [.sym "size", .num (to_mm sy), .num (to_mm sx)],
        .list [.sym "drill", .num (to_mm pin.DrillDiam)],
        .list [.sym "layers", .str "*.Cu", .str "*.Mask"]]]

/-- The segment emission of `Polyline.kicad_sexp` (freepcb2pretty.py:404):
one `fp_line` entry per consecutive point pair, with the vertical axis
sign-inverted and both coordinates converted to millimetres. -/
def polySegs (layer : String) (width : ℚ) : (ℚ × ℚ) → List (ℚ × ℚ) → List Sexp
  | _, [] => []
  | prev, q :: rest =>
    .list [.sym "fp_line",
      .list [.sym "start", .num (to_mm prev.1), .num (to_mm (-prev.2))],
      .list [.sym "end", .num (to_mm q.1), .num (to_mm (-q.2))],
      .list [.sym "layer", .str layer],
      .list [.sym "width", .num width]] :: polySegs layer width q rest

/-- `Polyline.kicad_sexp` (freepcb2pretty.py:404); `Points[0]` of an
empty polyline raises `IndexError`. -/
def polylineKicadSexp (p : Polyline) : Except String (List Sexp) :=
  match p.Points with
  | [] => .error "IndexError"
  | q :: rest => .ok (polySegs p.Layer p.KicadLinewidth q rest)

/-- `PCBmodule.kicad_sexp` (freepcb2pretty.py:266): the module header
entries, the two fixed text labels, every polyline's segments, every
pin's pad, and the optional 3D model block. -/
def moduleKicadSexp (opts : Opts) (m : PCBmodule) : Except String Sexp := do
  let polys := m.Graphics.filterMap (fun g => match g with
    | .poly p => some p
    | .pin _ => none)
  let pins := m.Graphics.filterMap (fun g => match g with
    | .poly _ => none
    | .pin p => some p)
  let polySexps ← polys.mapM polylineKicadSexp
  let pinSexps ← pins.mapM (pinKicadSexp opts)
  let threeD : List Sexp :=
    match m.ThreeDName with
    | none => []
    | some nm =>
      [.list [.sym "model", .str nm,
        .list [.sym "at", .list (.sym "xyz" :: m.ThreeDOffset.map .num)],
        .list [.sym "scale", .list (.sym "xyz" :: m.ThreeDScale.map .num)],
        .list [.sym "rotate", .list (.sym "xyz" :: m.ThreeDRot.map .num)]]]
  .ok (.list ([.sym "module", .str m.Name,
    .list [.sym "layer", .str "F.Cu"],
    .list [.sym "tedit", .str (hex8 (pyTrunc m.tedit))],
    .list [.sym "descr", .str m.Description],
    .list [.sym "attr", .sym "smd"],
    .list [.sym "fp_text", .sym "reference", .str "REF**",
      .list [.sym "at", .int 0, .int 0],
      .list [.sym "layer", .str "F.SilkS"],
      .list [.sym "effects",
        .list [.sym "font",
          .list [.sym "size", .num (8 / 10 : ℚ), .num (8 / 10 : ℚ)],
          .list [.sym "thickness", .num (15 / 100 : ℚ)]]]],
    .list [.sym "fp_text", .sym "value", .str m.Name,
      .list [.sym "at", .int 0, .int 0],
      .list [.sym "layer", .str "F.Fab"],
      .list [.sym "effects",
        .list [.sym "font",
          .list [.sym "size", .num (5 / 10 : ℚ), .num (5 / 10 : ℚ)],
          .list [.sym "thickness", .num (1 / 10 : ℚ)]]]]] ++
    polySexps.flatten ++ pinSexps.flatten ++ threeD))

/-- The deterministic-timestamp pass of `main` (freepcb2pretty.py:796):
set `tedit` to 0, hash `str(kicad_sexp())` with MD5, and set `tedit` to
the low 32 bits of the digest. -/
def hashPass (opts : Opts) (m : PCBmodule) : Except String PCBmodule := do
  let s ← moduleKicadSexp opts (setTedit 0 m)
  .ok (setTedit ((md5low32 (utf8Encode (pyRepr s)) : ℚ)) m)

/-- One step of the merge loop of `main` (freepcb2pretty.py:767):
parse one input file and add it into the accumulated library. -/
def mergeStep (now : ℚ) (acc : List PCBmodule) (lines : List String) :
    Except String (List PCBmodule) := do
  let sub ← parseLibrary lines now
  libAdd acc sub

/-- The optional strip pass of `main` (freepcb2pretty.py:783). -/
def stageStrip (opts : Opts) (lib : List PCBmodule) : Except String (List PCBmodule) :=
  if opts.strip_lmn then libStripLmn lib else .ok lib

/-- The optional 3D-map pass of `main` (freepcb2pretty.py:787). -/
def stage3d (opts : Opts) (lib : List PCBmodule) : Except String (List PCBmodule) :=
  match opts.threedmap with
  | some mapLines => process3dmap mapLines lib
  | none => .ok lib

/-- The optional courtyard pass of `main` (freepcb2pretty.py:791). -/
def stageCourtyard (opts : Opts) (lib : List PCBmodule) :
    Except String (List PCBmodule) :=
  match opts.courtyard with
  | some s => lib.mapM (add_courtyard s)
  | none => .ok lib

/-- The optional deterministic-timestamp pass of `main`
(freepcb2pretty.py:796). -/
def stageHash (opts : Opts) (lib : List PCBmodule) : Except String (List PCBmodule) :=
  if opts.hashtime then lib.mapM (hashPass opts) else .ok lib

/-- The emission loop of `main` (freepcb2pretty.py:807): one named
serialized document per module. -/
def emitAll (opts : Opts) (lib : List PCBmodule) :
    Except String (List (String × String)) :=
  lib.mapM (fun m => do
    let s ← moduleKicadSexp opts m
    .ok (m.Name ++ ".kicad_mod", sexpDump s))

/-- The pipeline of `main` after the library is merged. -/
def postParse (opts : Opts) (lib : List PCBmodule) :
    Except String (List (String × String)) := do
  let lib₁ ← stageStrip opts lib
  let lib₂ ← stage3d opts lib₁
  let lib₃ ← stageCourtyard opts lib₂
  let lib₄ ← stageHash opts lib₃
  emitAll opts lib₄

/-- The whole conversion of `main` (freepcb2pretty.py:764-811) on the
core's inputs: parse and merge the input files, then the optional
strip/3D-map/courtyard/hash passes, then emit one named serialized
document per module.  `now` is the wall clock `time.time()` reads. -/
def convert (files : List (List String)) (opts : Opts) (now : ℚ) :
    Except String (List (String × String)) := do
  let lib ← files.foldlM (mergeStep now) ([] : List PCBmodule)
  postParse opts lib

/-! ## Helper lemmas and claim-side definitions -/

/-- The value part of a line, computed exactly as `get_string` computes
it: split at the first `:`, strip, strip one level of quotes when the
value both starts and ends with one. -/
def lineValueOf (line : String) : String :=
  let value := pyStrip (pyPartition line ':').2.2
  if pyStartsWith value (String.mk [qchar]) ∧ pyEndsWith value (String.mk [qchar]) then
    match parse_string value with
    | .ok p => p.1
    | .error _ => value
  else value

/-- A value that starts with a double quote is successfully decoded by
`parse_string` (the no-closing-quote branch also returns a value). -/
theorem parse_string_quoted_ok (v : String) (t : List Char)
    (h : v.toList = qchar :: t) : ∃ p, parse_string v = .ok p := by
  unfold parse_string
  rw [h]
  simp only [if_neg (by simp : ¬ qchar ≠ qchar)]
  cases t.findIdx? (fun x => x = qchar) <;> exact ⟨_, rfl⟩

/-- `pyStartsWith v` with a one-character pattern forces the head. -/
theorem startsWith_qchar (v : String)
    (h : pyStartsWith v (String.mk [qchar]) = true) :
    ∃ t, v.toList = qchar :: t := by
  unfold pyStartsWith at h
  cases hv : v.toList with
  | nil => rw [hv] at h; simp at h
  | cons c t =>
    rw [hv] at h
    simp only [String.toList, List.take, decide_eq_true_eq] at h
    obtain ⟨h1, -⟩ := List.cons.inj h
    subst h1
    exact ⟨t, rfl⟩

/-- Membership in the suffix-letter string `"LMNlmn"` is membership in
the six letters. -/
theorem pyIn_lmn (c : Char) :
    pyIn c "LMNlmn" = true ↔ c ∈ (['L', 'M', 'N', 'l', 'm', 'n'] : List Char) := by
  have h : "LMNlmn".toList = ['L', 'M', 'N', 'l', 'm', 'n'] := rfl
  simp [pyIn, h]

/-! ## C9 -/

/-- C9: the name-normalization pass leaves a non-empty Module name that
does not end in one of the letters L, M, N (either case) unchanged, and
when the name does end in one of those letters it removes exactly the
last character. -/
theorem C9_strip_lmn (m : PCBmodule) (c : Char)
    (h : m.Name.toList.getLast? = some c) :
    (c ∉ (['L', 'M', 'N', 'l', 'm', 'n'] : List Char) → strip_lmn m = .ok m) ∧
    (c ∈ (['L', 'M', 'N', 'l', 'm', 'n'] : List Char) →
      strip_lmn m = .ok { m with Name := String.mk m.Name.toList.dropLast }) := by
  have h' : m.Name.data.getLast? = some c := h
  constructor
  · intro hc
    have hb : pyIn c "LMNlmn" = false := by
      rw [← Bool.not_eq_true]
      intro hmem
      exact hc ((pyIn_lmn c).1 hmem)
    simp [strip_lmn, h', hb]
  · intro hc
    simp [strip_lmn, h', (pyIn_lmn c).2 hc]

/-- C9 witness: concrete instances of both branches. -/
theorem C9_strip_lmn_witness :
    strip_lmn ({ Name := "SOT23N" } : PCBmodule) = .ok { Name := "SOT23" } ∧
    strip_lmn ({ Name := "SOT23" } : PCBmodule) = .ok { Name := "SOT23" } := by
  constructor
  · exact (C9_strip_lmn { Name := "SOT23N" } 'N' rfl).2 (by decide)
  · exact (C9_strip_lmn { Name := "SOT23" } '3' rfl).1 (by decide)

/-! ## C4 -/

/-- C4 counterexample: with `allowBlank` set, consuming a line whose
value part is blank still raises the expected-value format error rather
than succeeding — the claim's `allowBlank` success case does not exist
in the code, which never reads the parameter. -/
theorem C4_allow_blank_cex :
    get_string true ⟨["n_pins:"], 1⟩ = .error "Line 1: expected value" := by decide

/-- C4 amended: the consume operation ignores `allowBlank` entirely (the
two parameter values give identical results on every state), and a line
whose value part is blank after trimming and quote-stripping always
raises the expected-value format error. -/
theorem C4_blank_value (b : Bool) (st : FPFile) (l : String)
    (rest : List String) (n : Nat)
    (hskip : skipBlanks st = ⟨l :: rest, n⟩) (hblank : lineValueOf l = "") :
    get_string b st = .error ("Line " ++ toString n ++ ": expected value") ∧
    (∀ b₁ b₂ : Bool, get_string b₁ st = get_string b₂ st) := by
  refine ⟨?_, fun b₁ b₂ => rfl⟩
  unfold get_string
  rw [hskip]
  simp only []
  unfold lineValueOf at hblank
  by_cases hq : pyStartsWith (pyStrip (pyPartition l ':').2.2) (String.mk [qchar]) = true ∧
      pyEndsWith (pyStrip (pyPartition l ':').2.2) (String.mk [qchar]) = true
  · obtain ⟨t, ht⟩ := startsWith_qchar _ hq.1
    obtain ⟨p, hp⟩ := parse_string_quoted_ok _ t ht
    rw [if_pos hq] at hblank ⊢
    rw [hp] at hblank ⊢
    simp only [Except.map, bind, Except.bind] at hblank ⊢
    rw [if_pos hblank]
    simp
  · rw [if_neg hq] at hblank ⊢
    simp only [pure, Except.pure, bind, Except.bind]
    rw [if_pos hblank]
    simp

/-- C4 witness: the amended theorem at a concrete blank-valued line. -/
theorem C4_blank_value_witness :
    get_string false ⟨["n_pins:"], 1⟩ = .error "Line 1: expected value" ∧
    (∀ b₁ b₂ : Bool, get_string b₁ ⟨["n_pins:"], 1⟩ = get_string b₂ ⟨["n_pins:"], 1⟩) :=
  C4_blank_value false ⟨["n_pins:"], 1⟩ "n_pins:" [] 1 (by decide) (by decide)

/-! ## C8 -/

/-- The first double quote of `pre ++ qchar :: post` with `qchar ∉ pre`
sits at index `pre.length` (stated with the search's start accumulator). -/
theorem findIdx_qchar_aux (pre post : List Char) (h : qchar ∉ pre) (i : Nat) :
    (pre ++ qchar :: post).findIdx? (fun x => x = qchar) i = some (i + pre.length) := by
  induction pre generalizing i with
  | nil =>
    rw [List.nil_append, List.findIdx?_cons]
    simp
  | cons c cs ih =>
    have hc : c ≠ qchar := fun e => h (e ▸ List.mem_cons_self c cs)
    rw [List.cons_append, List.findIdx?_cons, if_neg (by simpa using hc),
      ih (fun hm => h (List.mem_cons_of_mem c hm)) (i + 1)]
    congr 1
    simp only [List.length_cons]
    omega

/-- C8 counterexample: on the raw token consisting of a tab and an `x`
(no space, so the token up to the first space is the whole two-character
token), the decoder returns the stripped one-character string, not the
token itself as the claim states. -/
theorem C8_parse_string_cex :
    parse_string (String.mk ['\t', 'x']) = .ok ("x", 3) ∧
    parse_string (String.mk ['\t', 'x']) ≠ .ok (String.mk ['\t', 'x'], 3) := by
  constructor
  · decide
  · decide

/-- C8 amended: for a nonempty raw value token not starting with a
double quote, the decoder returns the token up to the first space with
its surrounding whitespace stripped, and a consumed count of the
untrimmed token's length plus one; for a token starting with a double
quote that has a closing quote, it returns the substring strictly
between the two quotes and a consumed count of the characters up to and
including the closing quote plus the immediately following whitespace. -/
theorem C8_parse_string (s : String) (hne : s.toList ≠ []) :
    (s.toList.head? ≠ some qchar →
      parse_string s =
        .ok (pyStrip (pyPartition s ' ').1, (pyPartition s ' ').1.toList.length + 1)) ∧
    (∀ pre post : List Char, s.toList = qchar :: (pre ++ qchar :: post) → qchar ∉ pre →
      parse_string s =
        .ok (String.mk pre, (pre.length + 2) + (post.takeWhile pyIsSpace).length)) := by
  constructor
  · intro hhead
    cases hv : s.toList with
    | nil => exact absurd hv hne
    | cons c t =>
      have hc : c ≠ qchar := by
        rw [hv] at hhead
        simpa using hhead
      unfold parse_string
      rw [hv]
      simp only [if_pos hc]
  · intro pre post hv hpre
    have htake : (pre ++ qchar :: post).take pre.length = pre :=
      List.take_left pre (qchar :: post)
    have hdrop : (pre ++ qchar :: post).drop (pre.length + 1) = post := by
      have he : pre ++ qchar :: post = (pre ++ [qchar]) ++ post := by simp
      have hlen : (pre ++ [qchar]).length = pre.length + 1 := by simp
      rw [he, ← hlen, List.drop_left]
    unfold parse_string
    rw [hv]
    simp only [if_neg (show ¬ (qchar ≠ qchar) from fun h => h rfl),
      findIdx_qchar_aux pre post hpre 0, Nat.zero_add, htake, hdrop,
      Except.ok.injEq, Prod.mk.injEq]

/-- C8 witness: the amended theorem evaluated on an unquoted and on a
quoted token. -/
theorem C8_parse_string_witness :
    parse_string "abc def" = .ok ("abc", 4) ∧
    parse_string "\"AB\" 12" = .ok ("AB", 5) := by
  constructor
  · exact (C8_parse_string "abc def" (by decide)).1 (by decide)
  · have := (C8_parse_string "\"AB\" 12" (by decide)).2 ['A', 'B'] [' ', '1', '2']
      (by decide) (by decide)
    simpa using this

/-! ## C6 -/

/-- The duplicate scan finds nothing exactly when the name sets are
disjoint. -/
theorem findDup_none_iff (l₁ l₂ : List PCBmodule) :
    findDup l₁ l₂ = none ↔ ∀ i ∈ l₁, ∀ j ∈ l₂, i.Name ≠ j.Name := by
  induction l₁ with
  | nil => simp [findDup]
  | cons a l ih =>
    by_cases h : l₂.any (fun j => a.Name = j.Name)
    · simp only [findDup, if_pos h]
      simp only [List.any_eq_true, decide_eq_true_eq] at h
      obtain ⟨j, hj, he⟩ := h
      constructor
      · intro hc; cases hc
      · intro hall
        exact absurd he (hall a (List.mem_cons_self a l) j hj)
    · simp only [findDup, if_neg h, ih]
      simp only [List.any_eq_true, decide_eq_true_eq, not_exists] at h
      constructor
      · intro hall i hi j hj
        rcases List.mem_cons.1 hi with rfl | hi'
        · exact fun he => h j ⟨hj, he⟩
        · exact hall i hi' j hj
      · intro hall i hi j hj
        exact hall i (List.mem_cons_of_mem a hi) j hj

/-- What the duplicate scan returns names a module of each side. -/
theorem findDup_some (l₁ l₂ : List PCBmodule) (n : String)
    (h : findDup l₁ l₂ = some n) :
    (∃ i ∈ l₁, i.Name = n) ∧ ∃ j ∈ l₂, j.Name = n := by
  induction l₁ with
  | nil => simp [findDup] at h
  | cons a l ih =>
    by_cases ha : l₂.any (fun j => a.Name = j.Name)
    · simp only [findDup, if_pos ha, Option.some.injEq] at h
      subst h
      simp only [List.any_eq_true, decide_eq_true_eq] at ha
      obtain ⟨j, hj, he⟩ := ha
      exact ⟨⟨a, List.mem_cons_self a l, rfl⟩, ⟨j, hj, he.symm⟩⟩
    · simp only [findDup, if_neg ha] at h
      obtain ⟨⟨i, hi, hin⟩, hj⟩ := ih h
      exact ⟨⟨i, List.mem_cons_of_mem a hi, hin⟩, hj⟩

/-- C6: merging two libraries with disjoint module names concatenates
them (the first library's modules followed by the second's, with the
counts adding up), and merging two libraries that share a module name
raises the duplicate-name error naming the colliding module, producing
no combined result. -/
theorem C6_merge :
    (∀ l₁ l₂ : List PCBmodule, (∀ i ∈ l₁, ∀ j ∈ l₂, i.Name ≠ j.Name) →
      libAdd l₁ l₂ = .ok (l₁ ++ l₂) ∧
        (l₁ ++ l₂).length = l₁.length + l₂.length) ∧
    (∀ l₁ l₂ : List PCBmodule, (∃ i ∈ l₁, ∃ j ∈ l₂, i.Name = j.Name) →
      ∃ n, (∃ i ∈ l₁, i.Name = n) ∧ (∃ j ∈ l₂, j.Name = n) ∧
        libAdd l₁ l₂ = .error ("Duplicate module name \"" ++ n ++ "\"")) := by
  constructor
  · intro l₁ l₂ hdisj
    have h := (findDup_none_iff l₁ l₂).2 hdisj
    exact ⟨by simp [libAdd, h], by simp⟩
  · intro l₁ l₂ hsh
    obtain ⟨i, hi, j, hj, he⟩ := hsh
    cases hd : findDup l₁ l₂ with
    | none => exact absurd he (((findDup_none_iff l₁ l₂).1 hd) i hi j hj)
    | some n =>
      obtain ⟨h1, h2⟩ := findDup_some l₁ l₂ n hd
      exact ⟨n, h1, h2, by simp [libAdd, hd]⟩

/-- A one-field example module for the merge witness. -/
def modA : PCBmodule := { Name := "A" }

/-- A second example module for the merge witness. -/
def modB : PCBmodule := { Name := "B" }

/-- C6 witness: both branches of the merge theorem at concrete
one-module libraries. -/
theorem C6_merge_witness :
    (libAdd [modA] [modB] = .ok [modA, modB] ∧
      ([modA] ++ [modB]).length = 1 + 1) ∧
    (∃ n, (∃ i ∈ [modA], i.Name = n) ∧ (∃ j ∈ [modA], j.Name = n) ∧
      libAdd [modA] [modA] =
        .error ("Duplicate module name \"" ++ n ++ "\"")) := by
  constructor
  · exact C6_merge.1 [modA] [modB] (by decide)
  · exact C6_merge.2 [modA] [modA] ⟨modA, by simp, modA, by simp, rfl⟩

/-! ## C10 -/

/-- A well-formed source whose last physical line is followed by one
blank line. -/
def c10Lines : List String :=
  ["name: EOFMOD", "author: A", "source: S", "description: D",
   "  units: NM", "  sel_rect: 0 0 1 1", "  ref_text: 1 1 1 1 1",
   "  centroid: 0 0 0 0", ""]

/-- The same source with the trailing blank line removed: its last
physical line is an indented body record. -/
def c10Trunc : List String :=
  ["name: EOFMOD", "author: A", "source: S", "description: D",
   "  units: NM", "  sel_rect: 0 0 1 1", "  ref_text: 1 1 1 1 1",
   "  centroid: 0 0 0 0"]

/-- The module `c10Lines` parses to (with the wall clock fixed at 0). -/
def c10Mod : PCBmodule :=
  { Name := "EOFMOD", Author := "A", Source := "S", Description := "D",
    Units := some "NM", SelectionRect := some "0 0 1 1",
    RefText := some "1 1 1 1 1", Centroid := "0 0 0 0" }

/-- C10: the reader's indentation query (and key peek) are partial at
end of input — on an exhausted reader they raise instead of returning —
and the module-body loop evaluates the indentation query before the
end-of-input test, so the source whose last line is an indented body
record with no blank line after it fails with the indexing error, while
the same source with a trailing blank line parses. -/
theorem C10_eof_partiality :
    (∀ st : FPFile, st.File = [] → indent_level st = .error "IndexError") ∧
    (∀ st : FPFile, st.File = [] → peek_key st = .error "AssertionError") ∧
    (∀ (fuel : Nat) (m : PCBmodule) (st : FPFile), st.File = [] →
      bodyLoop (fuel + 1) m st = .error "IndexError") ∧
    parseLibrary c10Lines 0 = .ok [c10Mod] ∧
    parseLibrary c10Trunc 0 = .error "IndexError" := by
  refine ⟨?_, ?_, ?_, by decide, by decide⟩
  · intro st h
    simp [indent_level, h]
  · intro st h
    simp [peek_key, h]
  · intro fuel m st h
    simp [bodyLoop, indent_level, h, bind, Except.bind]

/-- C10 witness: the partial operations applied to a concrete exhausted
reader. -/
theorem C10_eof_partiality_witness :
    indent_level ⟨[], 7⟩ = .error "IndexError" ∧
    peek_key ⟨[], 7⟩ = .error "AssertionError" ∧
    bodyLoop 1 {} ⟨[], 7⟩ = .error "IndexError" :=
  ⟨C10_eof_partiality.1 ⟨[], 7⟩ rfl, C10_eof_partiality.2.1 ⟨[], 7⟩ rfl,
    C10_eof_partiality.2.2.1 0 {} ⟨[], 7⟩ rfl⟩

/-! ## C5 -/

/-- The C5 base source: one module, trailing blank line. -/
def c5Base : List String :=
  ["name: BLANKMOD", "author: A", "source: S", "description: D",
   "  units: NM", "  sel_rect: 0 0 1 1", "  ref_text: 1 1 1 1 1",
   "  centroid: 0 0 0 0", ""]

/-- A second module's source, for the between-modules insertion. -/
def c5Base2 : List String :=
  ["name: BLANKMOD2", "author: A", "source: S", "description: D",
   "  units: NM", "  sel_rect: 0 0 1 1", "  ref_text: 1 1 1 1 1",
   "  centroid: 0 0 0 0", ""]

/-- `c5Base` with a blank line inserted before the first record. -/
def c5Front : List String := "" :: c5Base

/-- `c5Base` with a blank line inserted between two header records. -/
def c5Hdr : List String :=
  ["name: BLANKMOD", "", "author: A", "source: S", "description: D",
   "  units: NM", "  sel_rect: 0 0 1 1", "  ref_text: 1 1 1 1 1",
   "  centroid: 0 0 0 0", ""]

/-- `c5Base` with a blank line inserted between the header and the
body. -/
def c5HdrBody : List String :=
  ["name: BLANKMOD", "author: A", "source: S", "description: D", "",
   "  units: NM", "  sel_rect: 0 0 1 1", "  ref_text: 1 1 1 1 1",
   "  centroid: 0 0 0 0", ""]

/-- `c5Base` with a blank line inserted between two body records. -/
def c5Body : List String :=
  ["name: BLANKMOD", "author: A", "source: S", "description: D",
   "  units: NM", "", "  sel_rect: 0 0 1 1", "  ref_text: 1 1 1 1 1",
   "  centroid: 0 0 0 0", ""]

/-- The module `c5Base` parses to (wall clock fixed at 0). -/
def c5Mod : PCBmodule :=
  { Name := "BLANKMOD", Author := "A", Source := "S", Description := "D",
    Units := some "NM", SelectionRect := some "0 0 1 1",
    RefText := some "1 1 1 1 1", Centroid := "0 0 0 0" }

/-- The module `c5Base2` parses to. -/
def c5Mod2 : PCBmodule :=
  { Name := "BLANKMOD2", Author := "A", Source := "S", Description := "D",
    Units := some "NM", SelectionRect := some "0 0 1 1",
    RefText := some "1 1 1 1 1", Centroid := "0 0 0 0" }

/-- C5 counterexample: inserting a blank line between two records inside
a module body does not yield the same parsed Library — the body loop's
indentation query sees the blank line as indentation level 0, ends the
body early, and the parse fails where the unmodified source succeeds. -/
theorem C5_blank_lines_cex :
    parseLibrary c5Base 0 = .ok [c5Mod] ∧
    parseLibrary c5Body 0 = .error "AssertionError" := by
  constructor
  · decide
  · decide

/-- C5 amended: blank lines are skipped before every consume and every
end-of-input test, so inserting a blank line where one of those comes
next — before the first record, between header records, or between
modules — leaves the parsed Library unchanged; but the indentation
query does not skip blank lines, so a blank line between a module's
header and its body (consumed as a header record) or between body
records (ending the body early) changes the outcome, and both insertion
points make this representative parse fail. -/
theorem C5_blank_lines :
    parseLibrary c5Base 0 = .ok [c5Mod] ∧
    parseLibrary c5Front 0 = .ok [c5Mod] ∧
    parseLibrary c5Hdr 0 = .ok [c5Mod] ∧
    parseLibrary (c5Base ++ c5Base2) 0 = .ok [c5Mod, c5Mod2] ∧
    parseLibrary (c5Base ++ "" :: c5Base2) 0 = .ok [c5Mod, c5Mod2] ∧
    parseLibrary c5HdrBody 0 = .error (unexpectedKey "units" 6) ∧
    parseLibrary c5Body 0 = .error "AssertionError" := by
  refine ⟨by decide, by decide, by decide, by decide, by decide, by decide, by decide⟩

/-! ## C7 -/

/-- A module for the 3D-map theorems. -/
def c7Mod : PCBmodule := { Name := "C7MOD" }

/-- The component a fourth key character addresses through Python's list
indexing of the three-element vectors: `x`, `y`, `z` give 0, 1, 2
directly, and `u`, `v`, `w` give 0, 1, 2 through negative indices
−3, −2, −1. -/
def axisComponent (c : Char) : Nat :=
  if c.toNat < 120 then c.toNat - 117 else c.toNat - 120

/-- `float("5")` evaluates to the rational 5. -/
theorem pyParseFloat_five : pyParseFloat "5" = .ok 5 := by
  have h : pyParseFloat "5" =
      .ok ((((5 : Nat) : ℚ) / 10 ^ (0 : Nat)) * 10 ^ Int.toNat 0) := rfl
  rw [h]
  norm_num

/-- C7 counterexample: the key `rotw` is none of the nine axis keys (nor
`mod`/`3dmod`), yet processing it after a module is selected does not
cause a fatal error — Python's negative list indexing makes it set
rotation component 2. -/
theorem C7_axis_key_cex :
    process3dmap ["mod: C7MOD", "rotw: 5"] [c7Mod] =
      .ok [{ c7Mod with ThreeDRot := [0, 0, 5] }] ∧
    "rotw" ∉ (["rotx", "roty", "rotz", "scax", "scay", "scaz",
      "offx", "offy", "offz", "mod", "3dmod"] : List String) := by
  constructor
  · have h : process3dmap ["mod: C7MOD", "rotw: 5"] [c7Mod] =
        .ok [{ c7Mod with ThreeDRot :=
          [0, 0, (((5 : Nat) : ℚ) / 10 ^ (0 : Nat)) * 10 ^ Int.toNat 0] }] := rfl
    rw [h]
    norm_num
  · decide

/-- C7 amended (rotation case; scale and offset behave identically by
the same code path): after a module has been selected, any key whose
first three characters are `rot` is treated as an axis key through its
fourth character — `u`/`v`/`w`/`x`/`y`/`z` set component
`axisComponent` of the rotation vector (the letter's code minus the
code of `x`, interpreted with Python's negative list indexing), a key
of only three characters raises an index error, and every key other
than `mod`, `3dmod` and keys starting with `rot`/`sca`/`off` is a fatal
unknown-key error. -/
theorem C7_axis_keys :
    (∀ (key value : String) (lineno : Nat) (s : Map3dState),
      key ≠ "mod" → key ≠ "3dmod" →
      pyStartsWith key "rot" = false → pyStartsWith key "sca" = false →
      pyStartsWith key "off" = false →
      map3dStep key value lineno s =
        .error ("3D map (line " ++ toString (lineno - 1) ++ "): unknown key \"" ++
          key ++ "\"")) ∧
    (∀ (c : Char) (restChars : List Char) (value : String) (q : ℚ)
      (lineno : Nat) (s : Map3dState) (i : Nat) (m : PCBmodule),
      s.current = some i → s.Modules.get? i = some m → m.ThreeDRot.length = 3 →
      pyParseFloat value = .ok q → c ∈ (['u', 'v', 'w', 'x', 'y', 'z'] : List Char) →
      map3dStep (String.mk ('r' :: 'o' :: 't' :: c :: restChars)) value lineno s =
        .ok { s with Modules :=
          s.Modules.set i { m with ThreeDRot := m.ThreeDRot.set (axisComponent c) q } }) ∧
    (∀ (value : String) (lineno : Nat) (s : Map3dState) (i : Nat),
      s.current = some i →
      map3dStep "rot" value lineno s = .error "IndexError") := by
  refine ⟨?_, ?_, ?_⟩
  · intro key value lineno s h1 h2 h3 h4 h5
    simp [map3dStep, h1, h2, h3, h4, h5]
  · intro c restChars value q lineno s i m hcur hget hlen hq hc
    have hrot : pyStartsWith (String.mk ('r' :: 'o' :: 't' :: c :: restChars)) "rot" = true :=
      rfl
    fin_cases hc <;>
      · simp only [map3dStep, String.ext_iff, hcur, hget, hlen, hq, hrot, updCurrent,
          pySetList, bind, Except.bind]
        simp [hget, hlen, axisComponent]
  · intro value lineno s i hcur
    have h1 : pyStartsWith "rot" "rot" = true := rfl
    simp [map3dStep, hcur, h1, String.ext_iff,
      show "rot".toList.get? 3 = none from rfl]

/-- C7 witness: the amended theorem's three branches at concrete
inputs. -/
theorem C7_axis_keys_witness :
    map3dStep "bogus" "1" 3 ⟨[c7Mod], none⟩ =
      .error ("3D map (line " ++ toString (3 - 1) ++ "): unknown key \"" ++
        "bogus" ++ "\"") ∧
    map3dStep (String.mk ('r' :: 'o' :: 't' :: 'w' :: [])) "5" 3 ⟨[c7Mod], some 0⟩ =
      .ok ⟨[{ c7Mod with ThreeDRot := ([0, 0, 0] : List ℚ).set (axisComponent 'w') 5 }],
        some 0⟩ ∧
    map3dStep "rot" "5" 3 ⟨[c7Mod], some 0⟩ = .error "IndexError" :=
  ⟨C7_axis_keys.1 "bogus" "1" 3 ⟨[c7Mod], none⟩ (by decide) (by decide) (by decide)
      (by decide) (by decide),
    C7_axis_keys.2.1 'w' [] "5" 5 3 ⟨[c7Mod], some 0⟩ 0 c7Mod rfl rfl (by decide)
      pyParseFloat_five (by decide),
    C7_axis_keys.2.2 "5" 3 ⟨[c7Mod], some 0⟩ 0 rfl⟩

/-! ## C1 -/

/-- The claim's shape-selection precedence, written from the claim's
words (a refinement reference for `pinShape`): unset mode gives rect;
a pin at the origin of a module matching the center-exception list
gives rect; mode `all` gives oval unless the module matches the general
exception list; mode `allbut1` gives oval unless the pin is named `1`
or the module matches the general exception list. -/
def shapeSpecC1 (opts : Opts) (pin : Pin) : String :=
  if opts.roundedpads = none then "rect"
  else if pin.Coords = (0, 0) ∧ opts.rcexceptions.any (fun p => p pin.ModName) then "rect"
  else if opts.roundedpads = some "all" then
    (if opts.rpexceptions.any (fun p => p pin.ModName) then "rect" else "oval")
  else if opts.roundedpads = some "allbut1" then
    (if pin.Name = "1" ∨ opts.rpexceptions.any (fun p => p pin.ModName) then "rect"
     else "oval")
  else "rect"

/-- The options of the claim's scenario: rounded pads `all`, no
exception lists. -/
def c1Opts : Opts :=
  { roundedpads := some "all", rpexceptions := [], rcexceptions := [],
    strip_lmn := false, courtyard := none, threedmap := none, hashtime := false }

/-- The pin of the claim's scenario: surface mount at the origin, angle
0, top pad width 500000 and lengths 250000 + 250000. -/
def c1Pin : Pin :=
  { ModName := "C1MOD", Name := "1", DrillDiam := 0, Coords := (0, 0), Angle := 0,
    TopPad := some ⟨1, 500000, 250000, 250000, 0⟩, InnerPad := none, BottomPad := none }

/-- C1: for every surface-mount pin under one of the three rounded-pad
modes, the emitted shape follows exactly the claim's precedence
(`shapeSpecC1`); and in the scenario — mode `all`, no exceptions, pin at
(0,0), angle 0, top pad 500000/250000/250000 — the emitted pad is an
oval of size (0.5, 0.5) millimetres. -/
theorem C1_pad_shape :
    (∀ (opts : Opts) (pin : Pin), pin.DrillDiam = 0 →
      (opts.roundedpads = none ∨ opts.roundedpads = some "all" ∨
        opts.roundedpads = some "allbut1") →
      pinShape opts pin = .ok (shapeSpecC1 opts pin)) ∧
    pinKicadSexp c1Opts c1Pin =
      .ok [.list [.sym "pad", .str "1", .sym "smd", .sym "oval",
        .list [.sym "at", .num 0, .num 0],
        .list [.sym "size", .num (5 / 10 : ℚ), .num (5 / 10 : ℚ)],
        .list [.sym "layers", .str "F.Cu", .str "F.Paste", .str "F.Mask"]]] := by
  constructor
  · intro opts pin _ hmode
    rcases hmode with h | h | h <;> rw [pinShape, shapeSpecC1, h] <;>
      by_cases ha : opts.rcexceptions.any (fun p => p pin.ModName) = true <;>
      by_cases hco : pin.Coords = (0, 0) <;>
      by_cases hb : opts.rpexceptions.any (fun p => p pin.ModName) = true <;>
      by_cases hn : pin.Name = "1" <;>
      simp [ha, hco, hb, hn] <;>
      try (split <;> rfl)
  · have h : pinKicadSexp c1Opts c1Pin =
        .ok [.list [.sym "pad", .str "1", .sym "smd", .sym "oval",
          .list [.sym "at", .num (to_mm ((0 : Int) : ℚ)), .num (-(to_mm ((0 : Int) : ℚ)))],
          .list [.sym "size", .num (to_mm ((250000 + 250000 : Int) : ℚ)),
            .num (to_mm ((500000 : Int) : ℚ))],
          .list [.sym "layers", .str "F.Cu", .str "F.Paste", .str "F.Mask"]]] := rfl
    rw [h]
    norm_num [to_mm]

/-- C1 witness: the precedence theorem applied to the scenario's options
and pin. -/
theorem C1_pad_shape_witness :
    pinShape c1Opts c1Pin = .ok (shapeSpecC1 c1Opts c1Pin) :=
  C1_pad_shape.1 c1Opts c1Pin rfl (Or.inr (Or.inl rfl))

/-! ## C3 -/

/-- `min` keeps the smaller left argument. -/
theorem pymin_eq_left {a b : ℚ} (h : a ≤ b) : pymin a b = a := if_pos h

/-- `min` keeps the smaller right argument. -/
theorem pymin_eq_right {a b : ℚ} (h : b ≤ a) : pymin a b = b := by
  unfold pymin
  split
  · exact le_antisymm (by assumption) h
  · rfl

/-- `max` keeps the larger left argument. -/
theorem pymax_eq_left {a b : ℚ} (h : b ≤ a) : pymax a b = a := if_pos h

/-- `max` keeps the larger right argument. -/
theorem pymax_eq_right {a b : ℚ} (h : a ≤ b) : pymax a b = b := by
  unfold pymax
  split
  · exact le_antisymm h (by assumption)
  · rfl

/-- C3: on a module whose aggregate bounding box is `(L, R, T, B)`, the
courtyard pass appends exactly one new closed rectangular polyline (5
points, the first repeated as the last) on the courtyard layer, leaves
every pre-existing graphic element unchanged, and the new polyline's own
bounding box is exactly the old one expanded by `s·10^6` nanometres on
all four sides. -/
theorem C3_courtyard (m : PCBmodule) (s L R T B : ℚ)
    (hbox : moduleBox m = .ok (L, R, T, B)) (hs : 0 ≤ s)
    (hLR : L ≤ R) (hBT : B ≤ T) :
    ∃ cy : Polyline,
      add_courtyard s m = .ok { m with Graphics := m.Graphics ++ [.poly cy] } ∧
      cy.Points.length = 5 ∧
      cy.Points.getLast? = cy.Points.head? ∧
      cy.Layer = "F.CrtYd" ∧
      polyBox cy =
        .ok (L - s * 1000000, R + s * 1000000, T + s * 1000000, B - s * 1000000) := by
  have hs6 : 0 ≤ s * 1000000 := by positivity
  have hlr : L - s * 1000000 ≤ R + s * 1000000 := by linarith
  have hbt : B - s * 1000000 ≤ T + s * 1000000 := by linarith
  refine ⟨⟨[(L - s * 1000000, T + s * 1000000), (R + s * 1000000, T + s * 1000000),
      (R + s * 1000000, B - s * 1000000), (L - s * 1000000, B - s * 1000000),
      (L - s * 1000000, T + s * 1000000)], none, false, "F.CrtYd", (5 / 100 : ℚ)⟩,
    ?_, rfl, rfl, rfl, ?_⟩
  · unfold add_courtyard from_mm
    rw [hbox]
    rfl
  · unfold polyBox
    simp only [List.map]
    rw [show (pyminList (L - s * 1000000) [R + s * 1000000, R + s * 1000000,
        L - s * 1000000, L - s * 1000000] : ℚ) = L - s * 1000000 by
      simp only [pyminList, List.foldl]
      rw [pymin_eq_left hlr, pymin_eq_left hlr, pymin_eq_left le_rfl,
        pymin_eq_left le_rfl]]
    rw [show (pymaxList (L - s * 1000000) [R + s * 1000000, R + s * 1000000,
        L - s * 1000000, L - s * 1000000] : ℚ) = R + s * 1000000 by
      simp only [pymaxList, List.foldl]
      rw [pymax_eq_right hlr, pymax_eq_left le_rfl, pymax_eq_left hlr,
        pymax_eq_left hlr]]
    rw [show (pymaxList (T + s * 1000000) [T + s * 1000000, B - s * 1000000,
        B - s * 1000000, T + s * 1000000] : ℚ) = T + s * 1000000 by
      simp only [pymaxList, List.foldl]
      rw [pymax_eq_left le_rfl, pymax_eq_left hbt, pymax_eq_left hbt,
        pymax_eq_left le_rfl]]
    rw [show (pyminList (T + s * 1000000) [T + s * 1000000, B - s * 1000000,
        B - s * 1000000, T + s * 1000000] : ℚ) = B - s * 1000000 by
      simp only [pyminList, List.foldl]
      rw [pymin_eq_left le_rfl, pymin_eq_right hbt, pymin_eq_left le_rfl,
        pymin_eq_left hbt]]

/-- A module with one polyline for the courtyard witness. -/
def c3Mod : PCBmodule :=
  { Name := "C3MOD",
    Graphics := [.poly ⟨[(0, 10), (10, 0)], some (15 / 100 : ℚ), false, "F.SilkS",
      (15 / 100 : ℚ)⟩] }

/-- C3 witness: the courtyard theorem applied to a concrete module with
bounding box (0, 10, 10, 0) and spacing 1. -/
theorem C3_courtyard_witness :
    ∃ cy : Polyline,
      add_courtyard 1 c3Mod = .ok { c3Mod with Graphics := c3Mod.Graphics ++ [.poly cy] } ∧
      cy.Points.length = 5 ∧
      cy.Points.getLast? = cy.Points.head? ∧
      cy.Layer = "F.CrtYd" ∧
      polyBox cy =
        .ok (0 - 1 * 1000000, 10 + 1 * 1000000, 10 + 1 * 1000000, 0 - 1 * 1000000) := by
  refine C3_courtyard c3Mod 1 0 10 10 0 ?_ (by norm_num) (by norm_num) (by norm_num)
  show moduleBox c3Mod = .ok (0, 10, 10, 0)
  have h : moduleBox c3Mod =
      .ok (pymin 0 10, pymax 0 10, pymax 10 0, pymin 10 0) := rfl
  rw [h, pymin_eq_left (by norm_num), pymax_eq_right (by norm_num),
    pymax_eq_left (by norm_num), pymin_eq_right (by norm_num)]

/-! ## C2 -/

/-- Overwriting the timestamp twice keeps only the second write. -/
theorem setTedit_setTedit (t u : ℚ) (m : PCBmodule) :
    setTedit t (setTedit u m) = setTedit t m := rfl

/-- The module parser with wall clock `now` is the parser at clock 0
with the timestamp overwritten. -/
theorem parsePCBmodule_tedit (fuel : Nat) (now : ℚ) (st : FPFile) :
    parsePCBmodule fuel now st =
      (parsePCBmodule fuel 0 st).map (fun r => (setTedit now r.1, r.2)) := by
  unfold parsePCBmodule
  cases parseModuleCore fuel st <;> rfl

/-- The library loop with wall clock `now` is the loop at clock 0 with
every module's timestamp overwritten. -/
theorem libraryLoop_tedit (fuel : Nat) (now : ℚ) (st : FPFile) :
    libraryLoop fuel now st =
      (libraryLoop fuel 0 st).map (fun r => (r.1.map (setTedit now), r.2)) := by
  induction fuel generalizing st with
  | zero => rfl
  | succ fuel ih =>
    unfold libraryLoop
    rcases at_end st with ⟨e, st₁⟩
    by_cases he : e = true
    · simp [he, Except.map]
    · simp only [Bool.not_eq_true] at he
      subst he
      simp only [Bool.false_eq_true, if_false]
      rw [parsePCBmodule_tedit fuel now st₁]
      unfold parsePCBmodule
      simp only [Except.map, bind, Except.bind]
      cases parseModuleCore fuel st₁ with
      | error err => rfl
      | ok r =>
        obtain ⟨m, st₂⟩ := r
        simp only [ih st₂, Except.map]
        cases libraryLoop fuel 0 st₂ with
        | error err => rfl
        | ok r₂ => rfl

/-- `parseLibrary` with wall clock `now` is the clock-0 parse with every
timestamp overwritten. -/
theorem parseLibrary_tedit (lines : List String) (now : ℚ) :
    parseLibrary lines now = (parseLibrary lines 0).map (List.map (setTedit now)) := by
  show Except.map Prod.fst (libraryLoop (lines.length + 2) now ⟨lines.map pyRStrip, 1⟩) =
    Except.map (List.map (setTedit now))
      (Except.map Prod.fst (libraryLoop (lines.length + 2) 0 ⟨lines.map pyRStrip, 1⟩))
  rw [libraryLoop_tedit]
  cases libraryLoop (lines.length + 2) 0 ⟨lines.map pyRStrip, 1⟩ <;> rfl

/-- Overwriting timestamps does not change the duplicate scan. -/
theorem findDup_setTedit (t : ℚ) (l₁ l₂ : List PCBmodule) :
    findDup (l₁.map (setTedit t)) (l₂.map (setTedit t)) = findDup l₁ l₂ := by
  induction l₁ with
  | nil => rfl
  | cons a l ih =>
    simp only [List.map_cons, findDup, List.any_map, ih]
    rfl

/-- Overwriting timestamps commutes with the merge. -/
theorem libAdd_setTedit (t : ℚ) (l₁ l₂ : List PCBmodule) :
    libAdd (l₁.map (setTedit t)) (l₂.map (setTedit t)) =
      (libAdd l₁ l₂).map (List.map (setTedit t)) := by
  unfold libAdd
  rw [findDup_setTedit]
  cases findDup l₁ l₂ with
  | none => simp [Except.map, List.map_append]
  | some n => rfl

/-- The whole merge loop with wall clock `now` is the clock-0 loop with
every timestamp overwritten. -/
theorem mergeFold_tedit (files : List (List String)) (acc : List PCBmodule) (now : ℚ) :
    files.foldlM (mergeStep now) (acc.map (setTedit now)) =
      (files.foldlM (mergeStep 0) acc).map (List.map (setTedit now)) := by
  induction files generalizing acc with
  | nil => rfl
  | cons lines fs ih =>
    simp only [List.foldlM_cons]
    have hstep : mergeStep now (acc.map (setTedit now)) lines =
        (mergeStep 0 acc lines).map (List.map (setTedit now)) := by
      unfold mergeStep
      rw [parseLibrary_tedit]
      cases parseLibrary lines 0 with
      | error e => rfl
      | ok sub =>
        simp only [Except.map, bind, Except.bind, libAdd_setTedit]
    rw [hstep]
    cases mergeStep 0 acc lines with
    | error e => rfl
    | ok acc₁ =>
      simp only [Except.map, bind, Except.bind]
      exact ih acc₁

/-- Name normalization ignores the timestamp. -/
theorem strip_lmn_setTedit (t : ℚ) (m : PCBmodule) :
    strip_lmn (setTedit t m) = (strip_lmn m).map (setTedit t) := by
  unfold strip_lmn setTedit
  dsimp only
  cases h : m.Name.toList.getLast? with
  | none => simp [h, Except.map]
  | some c =>
    simp only [h]
    split <;> rfl

/-- `mapM` over a mapped list, when the action commutes with the map. -/
theorem mapM_map_comm (f : PCBmodule → Except String PCBmodule)
    (g : PCBmodule → PCBmodule)
    (hfg : ∀ m, f (g m) = (f m).map g) (l : List PCBmodule) :
    (l.map g).mapM f = (l.mapM f).map (List.map g) := by
  induction l with
  | nil => rfl
  | cons a l ih =>
    simp only [List.map_cons, List.mapM_cons, hfg a]
    cases f a with
    | error e => rfl
    | ok b =>
      simp only [Except.map, bind, Except.bind, pure, Except.pure, ih]
      cases l.mapM f <;> rfl

/-- `mapM` over a mapped list, when the action ignores the map. -/
theorem mapM_map_invariant (f : PCBmodule → Except String PCBmodule)
    (g : PCBmodule → PCBmodule) (hfg : ∀ m, f (g m) = f m) (l : List PCBmodule) :
    (l.map g).mapM f = l.mapM f := by
  induction l with
  | nil => rfl
  | cons a l ih => simp only [List.map_cons, List.mapM_cons, hfg a, ih]

/-- The strip stage commutes with overwriting timestamps. -/
theorem stageStrip_setTedit (opts : Opts) (t : ℚ) (lib : List PCBmodule) :
    stageStrip opts (lib.map (setTedit t)) =
      (stageStrip opts lib).map (List.map (setTedit t)) := by
  unfold stageStrip libStripLmn
  split
  · exact mapM_map_comm _ _ (strip_lmn_setTedit t) lib
  · rfl

/-- The courtyard synthesis ignores the timestamp. -/
theorem add_courtyard_setTedit (s t : ℚ) (m : PCBmodule) :
    add_courtyard s (setTedit t m) = (add_courtyard s m).map (setTedit t) := by
  have hbox : moduleBox (setTedit t m) = moduleBox m := rfl
  unfold add_courtyard
  rw [hbox]
  cases hb : moduleBox m with
  | error e => rfl
  | ok b =>
    obtain ⟨l, r, tp, bt⟩ := b
    rfl

/-- The courtyard stage commutes with overwriting timestamps. -/
theorem stageCourtyard_setTedit (opts : Opts) (t : ℚ) (lib : List PCBmodule) :
    stageCourtyard opts (lib.map (setTedit t)) =
      (stageCourtyard opts lib).map (List.map (setTedit t)) := by
  unfold stageCourtyard
  cases opts.courtyard with
  | none => rfl
  | some s => exact mapM_map_comm _ _ (add_courtyard_setTedit s t) lib

/-- Selecting the current module commutes with overwriting timestamps,
for any per-module update that commutes with them. -/
theorem updCurrent_setTedit (t : ℚ) (ms : List PCBmodule) (cur : Option Nat)
    (i : Nat) (f : PCBmodule → Except String PCBmodule)
    (hfg : ∀ m, f (setTedit t m) = (f m).map (setTedit t)) :
    updCurrent ⟨ms.map (setTedit t), cur⟩ i f =
      (updCurrent ⟨ms, cur⟩ i f).map
        (fun s => ⟨s.Modules.map (setTedit t), s.current⟩) := by
  unfold updCurrent
  dsimp only
  rw [List.get?_map]
  cases ms.get? i with
  | none => rfl
  | some m =>
    simp only [Option.map_some', hfg m]
    cases f m with
    | error e => rfl
    | ok m₁ =>
      simp only [Except.map, bind, Except.bind]
      rw [← List.map_set]

/-- One 3D-map record commutes with overwriting timestamps. -/
theorem map3dStep_setTedit (key value : String) (lineno : Nat)
    (ms : List PCBmodule) (cur : Option Nat) (t : ℚ) :
    map3dStep key value lineno ⟨ms.map (setTedit t), cur⟩ =
      (map3dStep key value lineno ⟨ms, cur⟩).map
        (fun s => ⟨s.Modules.map (setTedit t), s.current⟩) := by
  unfold map3dStep
  dsimp only
  by_cases hmod : key = "mod"
  · simp only [hmod, if_true, if_pos]
    rw [List.findIdx?_map]
    have : ((fun m => decide (m.Name = value)) ∘ setTedit t) =
        (fun m => decide (m.Name = value)) := rfl
    rw [this]
    cases ms.findIdx? (fun m => decide (m.Name = value)) <;> rfl
  · simp only [hmod, if_false]
    by_cases h3d : key = "3dmod"
    · simp only [h3d, if_true, if_pos]
      cases cur with
      | none => rfl
      | some i => exact updCurrent_setTedit t ms (some i) i _ (fun m => rfl)
    · simp only [h3d, if_false]
      by_cases hrot : pyStartsWith key "rot" = true
      · simp only [hrot, if_true]
        cases cur with
        | none => rfl
        | some i =>
          cases key.toList.get? 3 with
          | none => rfl
          | some c =>
            simp only [bind, Except.bind]
            cases pyParseFloat value with
            | error e => rfl
            | ok q =>
              refine updCurrent_setTedit t ms (some i) i _ (fun m => ?_)
              show (do
                let v ← pySetList m.ThreeDRot ((c.toNat : Int) - 120) q
                Except.ok { setTedit t m with ThreeDRot := v }) = _
              cases pySetList m.ThreeDRot ((c.toNat : Int) - 120) q <;> rfl
      · simp only [hrot, if_false]
        by_cases hsca : pyStartsWith key "sca" = true
        · simp only [hsca, if_true]
          cases cur with
          | none => rfl
          | some i =>
            cases key.toList.get? 3 with
            | none => rfl
            | some c =>
              simp only [bind, Except.bind]
              cases pyParseFloat value with
              | error e => rfl
              | ok q =>
                refine updCurrent_setTedit t ms (some i) i _ (fun m => ?_)
                show (do
                  let v ← pySetList m.ThreeDScale ((c.toNat : Int) - 120) q
                  Except.ok { setTedit t m with ThreeDScale := v }) = _
                cases pySetList m.ThreeDScale ((c.toNat : Int) - 120) q <;> rfl
        · simp only [hsca, if_false]
          by_cases hoff : pyStartsWith key "off" = true
          · simp only [hoff, if_true]
            cases cur with
            | none => rfl
            | some i =>
              cases key.toList.get? 3 with
              | none => rfl
              | some c =>
                simp only [bind, Except.bind]
                cases pyParseFloat value with
                | error e => rfl
                | ok q =>
                  refine updCurrent_setTedit t ms (some i) i _ (fun m => ?_)
                  show (do
                    let v ← pySetList m.ThreeDOffset ((c.toNat : Int) - 120) q
                    Except.ok { setTedit t m with ThreeDOffset := v }) = _
                  cases pySetList m.ThreeDOffset ((c.toNat : Int) - 120) q <;> rfl
          · simp only [hoff, if_false]
            rfl

/-- The 3D-map loop commutes with overwriting timestamps. -/
theorem map3dLoop_setTedit (fuel : Nat) (ms : List PCBmodule) (cur : Option Nat)
    (st : FPFile) (t : ℚ) :
    map3dLoop fuel ⟨ms.map (setTedit t), cur⟩ st =
      (map3dLoop fuel ⟨ms, cur⟩ st).map
        (fun s => ⟨s.Modules.map (setTedit t), s.current⟩) := by
  induction fuel generalizing ms cur st with
  | zero => rfl
  | succ fuel ih =>
    unfold map3dLoop
    rcases at_end st with ⟨e, st₁⟩
    by_cases he : e = true
    · simp [he, Except.map]
    · simp only [Bool.not_eq_true] at he
      subst he
      simp only [Bool.false_eq_true, if_false, bind, Except.bind]
      cases get_string false st₁ with
      | error e => rfl
      | ok r =>
        obtain ⟨key, value, st₂⟩ := r
        dsimp only
        rw [map3dStep_setTedit]
        cases map3dStep key value st₂.Lineno ⟨ms, cur⟩ with
        | error e => rfl
        | ok s₁ => exact ih s₁.Modules s₁.current st₂

/-- `process_3dmap` commutes with overwriting timestamps. -/
theorem process3dmap_setTedit (mapLines : List String) (ms : List PCBmodule) (t : ℚ) :
    process3dmap mapLines (ms.map (setTedit t)) =
      (process3dmap mapLines ms).map (List.map (setTedit t)) := by
  unfold process3dmap
  dsimp only
  simp only [bind, Except.bind]
  rw [map3dLoop_setTedit]
  cases map3dLoop (mapLines.length + 2) ⟨ms, none⟩ ⟨mapLines.map pyRStrip, 1⟩ <;> rfl

/-- The 3D-map stage commutes with overwriting timestamps. -/
theorem stage3d_setTedit (opts : Opts) (t : ℚ) (lib : List PCBmodule) :
    stage3d opts (lib.map (setTedit t)) =
      (stage3d opts lib).map (List.map (setTedit t)) := by
  unfold stage3d
  cases opts.threedmap with
  | none => rfl
  | some mapLines => exact process3dmap_setTedit mapLines lib t

/-- The deterministic-timestamp pass erases any prior timestamp. -/
theorem hashPass_setTedit (opts : Opts) (t : ℚ) (m : PCBmodule) :
    hashPass opts (setTedit t m) = hashPass opts m := rfl

/-- The hash stage erases overwritten timestamps when it is enabled. -/
theorem stageHash_setTedit (opts : Opts) (t : ℚ) (lib : List PCBmodule)
    (h : opts.hashtime = true) :
    stageHash opts (lib.map (setTedit t)) = stageHash opts lib := by
  unfold stageHash
  rw [h]
  simp only [if_true]
  exact mapM_map_invariant _ _ (hashPass_setTedit opts t) lib

/-- The post-merge pipeline with the hash stage enabled gives the same
output whether or not every timestamp was overwritten beforehand. -/
theorem postParse_setTedit (opts : Opts) (t : ℚ) (lib : List PCBmodule)
    (h : opts.hashtime = true) :
    postParse opts (lib.map (setTedit t)) = postParse opts lib := by
  unfold postParse
  rw [stageStrip_setTedit]
  cases stageStrip opts lib with
  | error e => rfl
  | ok lib₁ =>
    simp only [Except.map, bind, Except.bind]
    rw [stage3d_setTedit]
    cases stage3d opts lib₁ with
    | error e => rfl
    | ok lib₂ =>
      simp only [Except.map]
      rw [stageCourtyard_setTedit]
      cases stageCourtyard opts lib₂ with
      | error e => rfl
      | ok lib₃ =>
        simp only [Except.map]
        rw [stageHash_setTedit opts t lib₃ h]

/-- C2: with the deterministic-timestamp option enabled, the serialized
output of a conversion run is a function of the input files and the
options alone — two runs at different wall-clock readings produce
byte-identical output — and every module leaving the hash pass carries
as its edit timestamp the low 32 bits of the MD5 hash of the textual
form of its expression tree (rendered with the timestamp zeroed, as the
pass does). -/
theorem C2_deterministic (opts : Opts) (h : opts.hashtime = true) :
    (∀ (files : List (List String)) (t₁ t₂ : ℚ),
      convert files opts t₁ = convert files opts t₂) ∧
    (∀ (m m₂ : PCBmodule), hashPass opts m = .ok m₂ →
      ∃ s, moduleKicadSexp opts (setTedit 0 m) = .ok s ∧
        m₂.tedit = (md5low32 (utf8Encode (pyRepr s)) : ℚ)) := by
  constructor
  · have key : ∀ (files : List (List String)) (t : ℚ),
        convert files opts t = convert files opts 0 := by
      intro files t
      unfold convert
      have hm : files.foldlM (mergeStep t) ([] : List PCBmodule) =
          (files.foldlM (mergeStep 0) []).map (List.map (setTedit t)) := by
        have hx := mergeFold_tedit files [] t
        simpa using hx
      rw [hm]
      cases files.foldlM (mergeStep 0) ([] : List PCBmodule) with
      | error e => rfl
      | ok lib =>
        simp only [Except.map, bind, Except.bind]
        exact postParse_setTedit opts t lib h
    intro files t₁ t₂
    rw [key files t₁, key files t₂]
  · intro m m₂ hok
    unfold hashPass at hok
    cases hs : moduleKicadSexp opts (setTedit 0 m) with
    | error e =>
      rw [hs] at hok
      exact absurd hok (by simp [bind, Except.bind])
    | ok s =>
      rw [hs] at hok
      simp only [bind, Except.bind] at hok
      refine ⟨s, rfl, ?_⟩
      obtain rfl : setTedit ((md5low32 (utf8Encode (pyRepr s)) : ℚ)) m = m₂ :=
        Except.ok.inj hok
      rfl

/-- Options with the deterministic-timestamp flag set, for the C2
witness. -/
def c2Opts : Opts :=
  { roundedpads := none, rpexceptions := [], rcexceptions := [],
    strip_lmn := false, courtyard := none, threedmap := none, hashtime := true }

/-- C2 witness: the determinism theorem applied to concrete options with
the hash flag set. -/
theorem C2_deterministic_witness :
    c2Opts.hashtime = true ∧
    ((∀ (files : List (List String)) (t₁ t₂ : ℚ),
      convert files c2Opts t₁ = convert files c2Opts t₂) ∧
    (∀ (m m₂ : PCBmodule), hashPass c2Opts m = .ok m₂ →
      ∃ s, moduleKicadSexp c2Opts (setTedit 0 m) = .ok s ∧
        m₂.tedit = (md5low32 (utf8Encode (pyRepr s)) : ℚ))) :=
  ⟨rfl, C2_deterministic c2Opts rfl⟩

end Freepcb
